import Mathlib

/-!
Shallow embedding of the cpm_disk repository (src/cpm_disk.py, src/cpm_dir.py):
a CP/M-style filesystem over a flat disk-image file.

Modelling conventions:
* A byte string is a `List Nat`; the callers of the Python code pass `bytes`
  objects whose elements are below 256, and every theorem that depends on
  byte-range behaviour carries that bound as a hypothesis.  Python `bytearray`
  construction raises `ValueError` on an element outside `[0, 256)` and
  `int.to_bytes(2, 'little')` raises `OverflowError` at `2^16`; the embedding
  reduces such elements modulo the width, and theorems about serialized
  entries carry hypotheses keeping the stored fields in range.
* The backing image file is modelled as a total map `Image := Nat → Nat` from
  byte offset to byte value.  A freshly created image file is zero-filled, and
  every read performed by the operations verified here stays inside the
  zero-filled region, so reads past the written area return 0 exactly as the
  model does.
* Python `int` arithmetic is exact; where the source subtracts or
  floor-divides quantities that can go negative (`total_usable_blocks`,
  `first_usable_block`, the running `data_length` of the extent planner, the
  countdown of `find_free_blocks`) the embedding uses `Int` with `Int.fdiv`,
  which is Python's floor division.  Quantities that are nonnegative in the
  source for every input (`size`, `off_blocks`, `directory_start`, ...) use
  `Nat`.
-/

namespace CpmDisk

/-- A byte-addressed disk image: offset ↦ byte value. -/
def Image : Type := Nat → Nat

/-- Python `EMPTY_DIR = 0xE5`, the unused-directory-entry sentinel (cpm_disk.py line 30). -/
def EMPTY_DIR : Nat := 0xE5

/-- ASCII whitespace stripped by Python `str.strip` / `str.rstrip`:
space, tab, linefeed, carriage return, vertical tab, form feed. -/
def isPyWhitespace (c : Nat) : Bool :=
  c == 32 || c == 9 || c == 10 || c == 13 || c == 11 || c == 12

/-- Python `s.rstrip()` on an ASCII string modelled as a byte list. -/
def rstripWs (s : List Nat) : List Nat :=
  ((s.reverse).dropWhile isPyWhitespace).reverse

/-- Python `s.strip()` on an ASCII string modelled as a byte list. -/
def stripWs (s : List Nat) : List Nat :=
  rstripWs (s.dropWhile isPyWhitespace)

/-- Python `s.upper()` on an ASCII string modelled as a byte list. -/
def upperAscii (s : List Nat) : List Nat :=
  s.map (fun c => if 97 ≤ c ∧ c ≤ 122 then c - 32 else c)

/-- Python `s.ljust(w, fill)`: right-pad to width `w`. -/
def ljust (s : List Nat) (w : Nat) (fill : Nat) : List Nat :=
  s ++ List.replicate (w - s.length) fill

/-- Python slice `data[a:b]` (for `a ≤ b`). -/
def pySlice (data : List Nat) (a b : Nat) : List Nat :=
  (data.drop a).take (b - a)

/-- The characters removed from a filename by `CPMDirectoryEntry.sanitize`
(cpm_dir.py line 139): `< > . , ; : = ? * [ ]`. -/
def forbiddenNameChars : List Nat := [60, 62, 46, 44, 59, 58, 61, 63, 42, 91, 93]

/-- Python `re.sub(r'[<>.,;:=?*\x5b\x5d]', '', filename)` from `sanitize`. -/
def sanitizeFilename (s : List Nat) : List Nat :=
  s.filter (fun c => !(forbiddenNameChars.contains c))

/-- Python `re.sub(r'[.]', '', filetype)` from `sanitize`. -/
def sanitizeFiletype (s : List Nat) : List Nat :=
  s.filter (fun c => c != 46)

/-- Python `EMPTY_ALLOCATION = [0] * 16` (cpm_dir.py line 110). -/
def EMPTY_ALLOCATION : List Nat := List.replicate 16 0

/-- A CP/M directory entry, the in-memory object of `CPMDirectoryEntry.__init__`
(cpm_dir.py lines 116-131).  `filename`/`filetype` hold the padded byte
strings stored by the constructor; `extent` is the derived
`(32 * extent_high) + extent_low` field. -/
structure CPMDirectoryEntry where
  status : Nat
  filename : List Nat
  filetype : List Nat
  extent_low : Nat
  reserved : Nat
  extent_high : Nat
  record_count : Nat
  block_allocation : List Nat
  extent : Nat
  use_16bit : Bool
deriving DecidableEq, Repr

/-- Python `CPMDirectoryEntry.__init__`: sanitizes, uppercases and pads the names,
defaults the reserved byte to 0, and replaces a falsy (empty) allocation list
by `EMPTY_ALLOCATION`.  Python default arguments: `user_number=0`,
`extent_low=0`, `extent_high=0`, `record_count=0`, `block_allocation=None`;
callers below always pass these explicitly. -/
def CPMDirectoryEntry.make (use_16bit : Bool) (user_number : Nat)
    (filename filetype : List Nat) (extent_low extent_high record_count : Nat)
    (block_allocation : List Nat) : CPMDirectoryEntry :=
  let filename := sanitizeFilename filename
  let filetype := sanitizeFiletype filetype
  { status := user_number
    filename := ljust (upperAscii filename) 8 32
    filetype := ljust (upperAscii filetype) 3 32
    extent_low := extent_low
    reserved := 0
    extent_high := extent_high
    record_count := record_count
    block_allocation := if block_allocation.isEmpty then EMPTY_ALLOCATION else block_allocation
    extent := 32 * extent_high + extent_low
    use_16bit := use_16bit }

/-- Python `CPMDirectoryEntry.encode16`: each block number as two little-endian bytes
(`block.to_bytes(2, 'little')`; Python raises OverflowError at `2^16`, the
embedding reduces modulo 256). -/
def encode16 (block_list : List Nat) : List Nat :=
  (block_list.map (fun block => [block % 256, block / 256 % 256])).flatten

/-- Python `CPMDirectoryEntry.decode16`: bytes two at a time, little-endian; a
trailing odd byte decodes as itself (`int.from_bytes` of one byte). -/
def decode16 : List Nat → List Nat
  | [] => []
  | [a] => [a]
  | a :: b :: rest => (a + 256 * b) :: decode16 rest

/-- Python `CPMDirectoryEntry.to_bytes` (cpm_dir.py lines 143-161): status, 8 name
bytes, 3 type bytes, extent_low, extent_high, reserved, record_count, then the
block pointers at the width selected by `use_16bit`. -/
def CPMDirectoryEntry.to_bytes (e : CPMDirectoryEntry) (use_16bit : Bool) : List Nat :=
  [e.status] ++ e.filename ++ e.filetype ++ [e.extent_low, e.extent_high]
    ++ [e.reserved] ++ [e.record_count]
    ++ (if use_16bit then encode16 e.block_allocation else e.block_allocation)

/-- Python `CPMDirectoryEntry.empty_entry`: one 0xE5 status byte and 31 zero bytes
(the `use_16bit` parameter is ignored by the source). -/
def empty_entry : List Nat := EMPTY_DIR :: List.replicate 31 0

/-- Python `CPMDirectoryEntry.from_bytes` (cpm_dir.py lines 184-198): field-wise parse
of a 32-byte record, then re-construction through `__init__` (which re-applies
sanitize/upper/ljust).  The local `reserved = data[13]` of the source is read
but never passed to the constructor, which resets it to 0. -/
def CPMDirectoryEntry.from_bytes (use_16bit : Bool) (data : List Nat) : CPMDirectoryEntry :=
  let user_number := data.getD 0 0
  let filename := rstripWs (pySlice data 1 9)
  let filetype := rstripWs (pySlice data 9 12)
  let extent_low := data.getD 12 0
  let extent_high := data.getD 14 0
  let record_count := data.getD 15 0
  let block_allocation :=
    if use_16bit then decode16 (pySlice data 16 32) else pySlice data 16 32
  CPMDirectoryEntry.make use_16bit user_number filename filetype
    extent_low extent_high record_count block_allocation

/-- The immutable disk-geometry parameters handed to `CPMDisk.__init__`
(cpm_disk.py line 39). -/
structure Geom where
  tracks : Nat
  sectors_per_track : Nat
  sector_size : Nat
  block_size : Nat
  bsh : Nat
  drm : Nat
  off : Nat
deriving DecidableEq, Repr

namespace Geom

/-- Python `self.size = tracks * sectors_per_track * sector_size`. -/
def size (g : Geom) : Nat := g.tracks * g.sectors_per_track * g.sector_size

/-- Python `self.off_blocks = (off * sectors_per_track * sector_size) // block_size`. -/
def off_blocks (g : Geom) : Nat :=
  g.off * g.sectors_per_track * g.sector_size / g.block_size

/-- Python `self.directory_start = off * sectors_per_track * sector_size`. -/
def directory_start (g : Geom) : Nat := g.off * g.sectors_per_track * g.sector_size

/-- Python `self.directory_size = drm * 32`. -/
def directory_size (g : Geom) : Nat := g.drm * 32

/-- Python `self.directory_blocks = math.ceil(directory_size / block_size)`
(exact ceiling division; Python divides by zero when `block_size = 0`). -/
def directory_blocks (g : Geom) : Nat :=
  (directory_size g + g.block_size - 1) / g.block_size

/-- Python `self.total_blocks = int(self.phisical_blocks)` where
`phisical_blocks = size / block_size` (true division truncated). -/
def total_blocks (g : Geom) : Nat := size g / g.block_size

/-- Python `self.data_area_start = directory_blocks * block_size`. -/
def data_area_start (g : Geom) : Nat := directory_blocks g * g.block_size

/-- Python `self.total_usable_blocks = ((size - data_area_start) // block_size) + 1`,
with Python's floor division on a possibly negative numerator. -/
def total_usable_blocks (g : Geom) : Int :=
  ((size g : Int) - data_area_start g).fdiv g.block_size + 1

/-- Python `self.first_usable_block = total_blocks - total_usable_blocks + 1`. -/
def first_usable_block (g : Geom) : Int :=
  (total_blocks g : Int) - total_usable_blocks g + 1

/-- Python `self.use_16bit = total_usable_blocks > 255`. -/
def use_16bit (g : Geom) : Bool := 255 < total_usable_blocks g

/-- Python `blocks_per_entry = 8 if disk.use_16bit else 16`
(cpm_dir.py line 226). -/
def blocks_per_entry (g : Geom) : Nat := if use_16bit g then 8 else 16

end Geom

/-- Python `CPMDisk.read_position` success path: `size` bytes starting at `position`
(the failure path is modelled separately, see `read_position_io`). -/
def read_position (img : Image) (position size : Nat) : List Nat :=
  (List.range size).map (fun i => img (position + i))

/-- Python `CPMDisk.write_position` success path: overwrite `data.length` bytes
starting at `position`. -/
def write_position (img : Image) (position : Nat) (data : List Nat) : Image :=
  fun i => if position ≤ i ∧ i < position + data.length then data.getD (i - position) 0 else img i

/-- Python `CPMDisk.read_block`: `block_size` bytes at `(block_number + off_blocks) * block_size`. -/
def read_block (g : Geom) (img : Image) (block_number : Nat) : List Nat :=
  read_position img ((block_number + g.off_blocks) * g.block_size) g.block_size

/-- Python `CPMDisk.write_block`: raises `ValueError("Data exceeds block size")` when
the data is longer than a block, otherwise writes the data right-padded with
zero bytes (`data.ljust(block_size, EMPTY_BYTE)`) at
`block_number * block_size + directory_start`. -/
def write_block (g : Geom) (img : Image) (block_number : Nat) (data : List Nat) :
    Except String Image :=
  if g.block_size < data.length then .error "Data exceeds block size"
  else .ok (write_position img (block_number * g.block_size + g.directory_start)
    (ljust data g.block_size 0))

/-- Python `CPMDisk.read_directory_entry`: 32 bytes at `directory_start + entry_number * 32`. -/
def read_directory_entry (g : Geom) (img : Image) (entry_number : Nat) : List Nat :=
  read_position img (g.directory_start + entry_number * 32) 32

/-- Python `CPMDisk.write_directory_entry`: write the record bytes at
`directory_start + entry_number * 32`. -/
def write_directory_entry (g : Geom) (img : Image) (entry_number : Nat)
    (entry_data : List Nat) : Image :=
  write_position img (g.directory_start + entry_number * 32) entry_data

/-- Python `CPMDisk.read_directory`: scan entries `0 ≤ e < drm`, decode every record
whose status byte is not `EMPTY_DIR`.  (The source wraps the decode in
try/except and skips a record that fails to decode; `from_bytes` is total in
the embedding, and every image these theorems scan holds decodable records.) -/
def read_directory (g : Geom) (img : Image) : List CPMDirectoryEntry :=
  (List.range g.drm).filterMap (fun entry_number =>
    let entry_data := read_directory_entry g img entry_number
    if entry_data.getD 0 0 ≠ EMPTY_DIR then
      some (CPMDirectoryEntry.from_bytes (g.use_16bit) entry_data)
    else none)

/-- Python `CPMDisk.find_free_directory_entry`: first entry number whose status byte
is `EMPTY_DIR`, `None` if there is none. -/
def find_free_directory_entry (g : Geom) (img : Image) : Option Nat :=
  (List.range g.drm).find? (fun entry_number =>
    (read_directory_entry g img entry_number).getD 0 0 == EMPTY_DIR)

/-- Python `CPMDisk.get_used_blocks_from_directory`: the nonzero block pointers of all
in-memory directory entries, in order. -/
def get_used_blocks_from_directory (directory : List CPMDirectoryEntry) : List Nat :=
  (directory.map (fun entry => entry.block_allocation.filter (fun block => block ≠ 0))).flatten

/-- Python `CPMDisk.get_blocks_status_from_directory` (cpm_disk.py lines 263-279):
a list of `total_usable_blocks + 1` flags, `true` = free; indices below
`directory_blocks` are marked used, and every used block `b` with
`0 < b ≤ total_usable_blocks` is marked used.  (Python would raise IndexError
when `directory_blocks` exceeds the list length; theorems about this function
carry `directory_blocks ≤ total_usable_blocks` where they need the list to be
that long.) -/
def get_blocks_status_from_directory (g : Geom) (directory : List CPMDirectoryEntry) :
    List Bool :=
  let used_blocks := get_used_blocks_from_directory directory
  (List.range (g.total_usable_blocks + 1).toNat).map (fun b =>
    if b < g.directory_blocks then false
    else if used_blocks.contains b ∧ 0 < b ∧ (b : Int) ≤ g.total_usable_blocks then false
    else true)

/-- The `for number, status in enumerate(...)` loop of
`CPMDisk.find_free_blocks`, with Python's `enumerate` materialized as the
explicit index `idx`.  Appends each free index and decrements the countdown,
breaking as soon as the countdown reaches exactly zero (it starts as the
caller's argument and may become negative, in which case it never breaks).
Returns the collected blocks and the final countdown. -/
def find_free_blocks_loop : List Bool → Nat → Int → List Nat → List Nat × Int
  | [], _, number_of_blocks, free_blocks => (free_blocks, number_of_blocks)
  | status :: rest, idx, number_of_blocks, free_blocks =>
    let free_blocks' := if status then free_blocks ++ [idx] else free_blocks
    let n' := if status then number_of_blocks - 1 else number_of_blocks
    if n' = 0 then (free_blocks', n')
    else find_free_blocks_loop rest (idx + 1) n' free_blocks'

/-- Python `CPMDisk.find_free_blocks`: first-fit scan of the status list; raises
"Not enough free space on the disk" when the countdown is still positive at
the end. -/
def find_free_blocks (g : Geom) (directory : List CPMDirectoryEntry)
    (number_of_blocks : Int) : Except String (List Nat) :=
  let r := find_free_blocks_loop (get_blocks_status_from_directory g directory)
    0 number_of_blocks []
  if 0 < r.2 then .error "Not enough free space on the disk" else .ok r.1

/-- Python `math.ceil(a / b)` for natural `a` and positive natural `b`
(Python raises ZeroDivisionError when `b = 0`). -/
def ceilNat (a b : Nat) : Nat := (a + b - 1) / b

/-- Python `math.ceil(a / b)` for integer `a` and positive natural `b`
(`(a + b - 1).fdiv b` is the ceiling of `a / b` whenever `b > 0`). -/
def ceilInt (a : Int) (b : Nat) : Int := (a + b - 1).fdiv b

/-- The `for i in range(num_extents)` loop of
`CPMDirectoryEntry.create_entries_for_file` (cpm_dir.py lines 238-252): each
iteration computes `record_count = math.ceil(min(data_length,
records_per_extent) / sector_size)`, subtracts `record_count * sector_size`
from the running (possibly negative) `data_length`, slices
`blocks[i*bpe : i*bpe + bpe]`, and constructs an entry with `extent_low = i`.
The stored `record_count` byte is clamped by `Int.toNat`; Python's `bytearray`
would raise on a negative value, and the theorems below only concern runs
where it is nonnegative. -/
def create_entries_loop (g : Geom) (filename filetype : List Nat) (blocks : List Nat)
    (records_per_extent : Nat) : Nat → Nat → Int → List CPMDirectoryEntry
  | 0, _, _ => []
  | fuel + 1, i, data_length =>
    let record_count := ceilInt (min data_length (records_per_extent : Int)) g.sector_size
    let data_length' := data_length - record_count * g.sector_size
    let block_allocation :=
      (blocks.drop (i * g.blocks_per_entry)).take g.blocks_per_entry
    CPMDirectoryEntry.make g.use_16bit 0 filename filetype i 0 record_count.toNat
        block_allocation
      :: create_entries_loop g filename filetype blocks records_per_extent fuel
        (i + 1) data_length'

/-- Python `CPMDirectoryEntry.create_entries_for_file` (cpm_dir.py lines 221-254):
compute the block/extent counts, re-read the directory from the disk, take the
first free blocks, and build one entry per extent. -/
def create_entries_for_file (g : Geom) (img : Image) (filename filetype : List Nat)
    (data_length : Nat) : Except String (List CPMDirectoryEntry) :=
  let records_per_extent := g.block_size * g.blocks_per_entry
  let num_blocks := ceilNat data_length g.block_size
  let num_extents := ceilNat num_blocks g.blocks_per_entry
  let directory := read_directory g img
  (find_free_blocks g directory (num_blocks : Int)).map (fun blocks =>
    create_entries_loop g filename filetype blocks records_per_extent
      num_extents 0 (data_length : Int))

/-- The block-writing loop of `CPMDisk.write_file`
(`for i, block in enumerate(blocks): write_block(block, data[start:end])`),
with `enumerate` materialized as the index `i`. -/
def write_blocks_loop (g : Geom) (data : List Nat) :
    Image → List Nat → Nat → Except String Image
  | img, [], _ => .ok img
  | img, block :: rest, i => do
    let img' ← write_block g img block (pySlice data (i * g.block_size) (i * g.block_size + g.block_size))
    write_blocks_loop g data img' rest (i + 1)

/-- The entry-writing loop of `CPMDisk.write_file`: for each planned entry,
find the first free directory slot on the current image and write the entry
bytes there.  When the directory is full Python computes
`directory_start + None * 32` and crashes with a TypeError, modelled as an
error result. -/
def write_entries_loop (g : Geom) :
    Image → List CPMDirectoryEntry → Except String Image
  | img, [] => .ok img
  | img, entry :: rest =>
    match find_free_directory_entry g img with
    | none => .error "TypeError: unsupported operand type(s) for *: NoneType and int"
    | some num_entry =>
      write_entries_loop g
        (write_directory_entry g img num_entry (entry.to_bytes g.use_16bit)) rest

/-- Python `CPMDisk.write_file` (cpm_disk.py lines 319-346): refresh the directory
(recomputed inside `create_entries_for_file` in this state-free model), plan
the extents, write the data block by block across the concatenated
allocations, then write one directory record per extent. -/
def write_file (g : Geom) (img : Image) (filename filetype data : List Nat) :
    Except String Image := do
  let entries ← create_entries_for_file g img filename filetype data.length
  let blocks := (entries.map (fun entry => entry.block_allocation)).flatten
  let img1 ← write_blocks_loop g data img blocks 0
  write_entries_loop g img1 entries

/-- The name comparison of `CPMDisk.read_file`:
`entry.filename.strip() == filename.upper() and entry.filetype.strip() == filetype.upper()`. -/
def entry_matches (e : CPMDirectoryEntry) (filename filetype : List Nat) : Bool :=
  stripWs e.filename == upperAscii filename && stripWs e.filetype == upperAscii filetype

/-- Python `CPMDisk.read_file` (cpm_disk.py lines 348-365): decode all `drm` records,
keep those whose stripped name and type match the uppercased arguments, and
when at least one matches concatenate, entry by entry, the contents of each
referenced block up to the first zero pointer.  Returns `None` when nothing
matches. -/
def read_file (g : Geom) (img : Image) (filename filetype : List Nat) :
    Option (List Nat) :=
  let entries := (List.range g.drm).filterMap (fun entry_number =>
    let entry := CPMDirectoryEntry.from_bytes g.use_16bit
      (read_directory_entry g img entry_number)
    if entry_matches entry filename filetype then some entry else none)
  if entries.isEmpty then none
  else some ((entries.map (fun entry =>
    ((entry.block_allocation.takeWhile (fun block => block ≠ 0)).map
      (fun block => read_block g img block)).flatten)).flatten)

/-- The record-writing loop of `CPMDisk.initialize_disk` truncated to the
first `m` slots: starting from the zero-filled image, write `empty_entry`
into slots `0, 1, ..., m-1`. -/
def init_upto (g : Geom) (m : Nat) : Image :=
  (List.range m).foldl (fun img entry_number =>
    write_directory_entry g img entry_number empty_entry) (fun _ => 0)

/-- Python `CPMDisk.initialize_disk` (cpm_disk.py lines 116-125): zero-fill the whole
image (`EMPTY_BYTE * size` into a fresh file; the model's base image is the
constant-zero map) and write an empty record into every slot of
`range(drm + 1)` — that is `drm + 1` records. -/
def initialize_disk (g : Geom) : Image := init_upto g (g.drm + 1)

/-- Outcome of `CPMDisk.delete_file` in the model. -/
inductive DeleteResult where
  /-- The process terminated via `exit(code)`. -/
  | processExit (code : Nat)
  /-- Python `raise FileNotFoundError(...)` reached the caller. -/
  | notFound
deriving DecidableEq, Repr

/-- The scan loop of `CPMDisk.delete_file` (cpm_disk.py lines 401-416) over the
remaining entry numbers.  On the first entry whose stripped filename matches
`filename.upper()` the source executes
`write_directory_entry(entry_number, EMPTY_DIR * 32)`: `EMPTY_DIR` is the
integer `0xE5`, so the "data" argument is the integer `7328`, and
`f.write(7328)` inside `write_position` raises TypeError, which the
`except Exception` handler there turns into `exit(1)` — the process
terminates before any block is touched.  Modelled as `processExit 1`.
If no entry matches, `FileNotFoundError` is raised. -/
def delete_file_loop (g : Geom) (img : Image) (filename : List Nat) :
    List Nat → DeleteResult
  | [] => .notFound
  | entry_number :: rest =>
    let entry := CPMDirectoryEntry.from_bytes g.use_16bit
      (read_directory_entry g img entry_number)
    if stripWs entry.filename == upperAscii filename then .processExit 1
    else delete_file_loop g img filename rest

/-- Python `CPMDisk.delete_file`: scan entries `0 ≤ e < drm` with `delete_file_loop`. -/
def delete_file (g : Geom) (img : Image) (filename : List Nat) : DeleteResult :=
  delete_file_loop g img filename (List.range g.drm)

/-- Result of a positioned I/O call as the process observes it. -/
inductive IOResult (α : Type) where
  /-- The call returned a value to its caller. -/
  | ok (val : α)
  /-- The call terminated the whole process via `exit(code)`. -/
  | processExit (code : Nat)
deriving DecidableEq, Repr

/-- Python `CPMDisk.read_position` with its error handling (cpm_disk.py lines
160-169), abstracted over the backing file `fs : position → size → bytes or
failure`: on any failure of the underlying open/seek/read the handler prints a
diagnostic and calls `exit(1)`. -/
def read_position_io (fs : Nat → Nat → Except String (List Nat))
    (position size : Nat) : IOResult (List Nat) :=
  match fs position size with
  | .ok data => .ok data
  | .error _ => .processExit 1

/-- Python `CPMDisk.write_position` with its error handling (cpm_disk.py lines
171-180), abstracted over the backing file: on any failure of the underlying
open/seek/write the handler prints a diagnostic and calls `exit(1)`. -/
def write_position_io (fs : Nat → List Nat → Except String Unit)
    (position : Nat) (data : List Nat) : IOResult Unit :=
  match fs position data with
  | .ok _ => .ok ()
  | .error _ => .processExit 1

/-- Python `CPMDisk.block` (cpm_disk.py lines 131-135):
`((track * sectors_per_track + sector) >> bsh) - off_blocks` on Python
integers (`>>` is floor division by `2 ^ bsh`). -/
def block (g : Geom) (track sector : Int) : Int :=
  (track * g.sectors_per_track + sector).fdiv (2 ^ g.bsh) - g.off_blocks

/-- Python `CPMDisk.track_sector` (cpm_disk.py lines 137-145): add `off_blocks`,
shift left by `bsh` to a linear sector number, then floor-divide/mod by
`sectors_per_track`. -/
def track_sector (g : Geom) (blk : Int) : Int × Int :=
  let b := blk + g.off_blocks
  let linear_sector_number := b * 2 ^ g.bsh
  (linear_sector_number.fdiv g.sectors_per_track,
   linear_sector_number.fmod g.sectors_per_track)

/-! ### Concrete instances used by counterexamples and witnesses -/

/-- The 8" SSSD example geometry of the spec:
tracks=77, sectorsPerTrack=26, sectorSize=128, blockSize=1024, blockShift=3,
directoryMaxEntries=64, reservedTracks=2. -/
def flagshipGeom : Geom := ⟨77, 26, 128, 1024, 3, 64, 2⟩

/-- A small well-formed geometry whose read and write offset bases coincide:
`directory_start = 128 = off_blocks * block_size`. -/
def g_small : Geom := ⟨4, 2, 64, 128, 1, 2, 1⟩

/-- A small geometry whose directory start (byte 32) is *not* a multiple of
its block size (64), so `off_blocks = 0` and the read-offset base
`(n + off_blocks) * block_size` differs from the write-offset base
`n * block_size + directory_start` by 32 bytes. -/
def g_mis : Geom := ⟨4, 1, 32, 64, 1, 1, 1⟩

/-- Filename "A". -/
def nameA : List Nat := [65]

/-- Filetype "B". -/
def typeB : List Nat := [66]

/-- One `g_small` block (128 bytes) of payload. -/
def data_one_block : List Nat := List.replicate 128 7

/-- One `g_mis` block (64 bytes) of payload. -/
def data_mis : List Nat := List.replicate 64 7

/-- An image whose every byte is the unused sentinel: an empty directory. -/
def all_unused_image : Image := fun _ => EMPTY_DIR

/-- A character allowed in the theorems' filenames: ASCII digit or uppercase
letter (printable, not forbidden by `sanitize`, unchanged by `upper`, not
whitespace). -/
def goodChar (c : Nat) : Prop := (48 ≤ c ∧ c ≤ 57) ∨ (65 ≤ c ∧ c ≤ 90)

instance (c : Nat) : Decidable (goodChar c) := by
  unfold goodChar; infer_instance

instance {ε α : Type} [DecidableEq ε] [DecidableEq α] : DecidableEq (Except ε α) :=
  fun a b =>
    match a, b with
    | .ok a, .ok b => decidable_of_iff (a = b) (by simp)
    | .error a, .error b => decidable_of_iff (a = b) (by simp)
    | .ok _, .error _ => isFalse (by simp)
    | .error _, .ok _ => isFalse (by simp)

/-! ## Theorems -/

/-- C8 (counterexample): on the example geometry
{tracks=77, spt=26, sectorSize=128, blockSize=1024, bsh=3, drm=64, off=2}
the code derives `total_usable_blocks = 249`, not 241 as the spec claims
(`(256256 - 2·1024) // 1024 + 1 = 249`). -/
theorem C8_counterexample : Geom.total_usable_blocks flagshipGeom ≠ 241 := by decide

/-- C8 (amended): the example geometry yields image size 256256 bytes,
directoryBlocks = 2, totalUsableBlocks = **249** (not 241), 8-bit pointer
mode; and planning a 2050-byte file against an empty directory allocates
3 blocks in exactly one extent whose record count is ceil(2050/128) = 17. -/
theorem C8_derived_values :
    Geom.size flagshipGeom = 256256 ∧
    Geom.directory_blocks flagshipGeom = 2 ∧
    Geom.total_usable_blocks flagshipGeom = 249 ∧
    Geom.use_16bit flagshipGeom = false ∧
    (create_entries_for_file flagshipGeom all_unused_image [84] [88] 2050).toOption.map
        (fun es => es.map (fun e => (e.record_count, e.block_allocation.length)))
      = some [(17, 3)] := by decide

/-- C9: converting a block number `b ≥ 0` to its track/sector pair and
back is the identity, `block (track_sector b) = b`, whenever the geometry has
at least one sector per track (Python divides by `sectors_per_track`). -/
theorem C9_track_sector_block_inverse (g : Geom) (b : Nat)
    (_h : 0 < g.sectors_per_track) :
    block g (track_sector g (b : Int)).1 (track_sector g (b : Int)).2 = b := by
  unfold block track_sector
  have h2 : ((2 : Int) ^ g.bsh) ≠ 0 := by positivity
  have key : ((((b : Int) + g.off_blocks) * 2 ^ g.bsh).fdiv g.sectors_per_track)
        * g.sectors_per_track
      + (((b : Int) + g.off_blocks) * 2 ^ g.bsh).fmod g.sectors_per_track
      = ((b : Int) + g.off_blocks) * 2 ^ g.bsh := by
    rw [Int.mul_comm]
    exact Int.fdiv_add_fmod _ _
  simp only []
  rw [key, Int.mul_fdiv_cancel _ h2]
  ring

/-- Witness for C9 at the example geometry and block 5. -/
theorem C9_track_sector_block_inverse_witness :
    0 < Geom.sectors_per_track flagshipGeom ∧
      block flagshipGeom (track_sector flagshipGeom (5 : Int)).1
        (track_sector flagshipGeom (5 : Int)).2 = 5 :=
  ⟨by decide, C9_track_sector_block_inverse flagshipGeom 5 (by decide)⟩

/-- C10 (counterexample): on `g_mis` with an empty directory,
`find_free_blocks 0` returns the empty list (the countdown is already 0 at
the first status check, which is occupied, so the loop breaks immediately),
even though blocks 1 and 2 are free — as `find_free_blocks 2` shows. -/
theorem C10_counterexample :
    find_free_blocks g_mis [] 0 = .ok [] ∧
      find_free_blocks g_mis [] 2 = .ok [1, 2] := by decide

/-- C4 (counterexample): when the backing-file read (or write) fails,
`read_position` / `write_position` do not return an error value — the
`except` handler prints a diagnostic and calls `exit(1)`, terminating the
process. -/
theorem C4_counterexample :
    read_position_io (fun _ _ => .error "disk read failed") 0 32
        = .processExit 1 ∧
      write_position_io (fun _ _ => .error "disk write failed") 0 [0]
        = .processExit 1 := ⟨rfl, rfl⟩

/-- C4 (amended): for every backing-file read or write failure inside a
positioned access, the operation terminates the process with exit status 1
(after printing a diagnostic); no typed error is returned to the caller. -/
theorem C4_io_failure_exits
    (fsr : Nat → Nat → Except String (List Nat))
    (fsw : Nat → List Nat → Except String Unit)
    (p s : Nat) (d : List Nat) (er ew : String)
    (hr : fsr p s = .error er) (hw : fsw p d = .error ew) :
    read_position_io fsr p s = .processExit 1 ∧
      write_position_io fsw p d = .processExit 1 := by
  unfold read_position_io write_position_io
  rw [hr, hw]
  exact ⟨rfl, rfl⟩

/-- Witness for C4 at a concrete failing backend. -/
theorem C4_io_failure_exits_witness :
    (fun (_ : Nat) (_ : Nat) => (.error "io" : Except String (List Nat))) 3 32
        = .error "io" ∧
      (fun (_ : Nat) (_ : List Nat) => (.error "io" : Except String Unit)) 3 [1]
        = .error "io" ∧
      (read_position_io (fun _ _ => .error "io") 3 32 = .processExit 1 ∧
        write_position_io (fun _ _ => .error "io") 3 [1] = .processExit 1) :=
  ⟨rfl, rfl, C4_io_failure_exits _ _ 3 32 [1] "io" "io" rfl rfl⟩

/-- C6: `read_block n` returns the `block_size` bytes at byte offset
`(n + off_blocks) * block_size`, while `write_block n data` writes at byte
offset `n * block_size + directory_start` after right-padding `data` with
zero bytes to exactly `block_size` — two different offset bases — and fails
with the capacity error "Data exceeds block size" when `data` is longer than
a block. -/
theorem C6_block_store_offsets (g : Geom) (img : Image) (n : Nat) (data : List Nat) :
    read_block g img n
        = (List.range g.block_size).map
            (fun i => img ((n + g.off_blocks) * g.block_size + i)) ∧
      write_block g img n data
        = (if g.block_size < data.length then .error "Data exceeds block size"
           else .ok (fun o =>
             if n * g.block_size + g.directory_start ≤ o ∧
                 o < n * g.block_size + g.directory_start + g.block_size
             then (data ++ List.replicate (g.block_size - data.length) 0).getD
               (o - (n * g.block_size + g.directory_start)) 0
             else img o)) := by
  constructor
  · rfl
  · unfold write_block
    split
    · rfl
    · rename_i hlen
      have hlj : (ljust data g.block_size 0).length = g.block_size := by
        unfold ljust
        simp only [List.length_append, List.length_replicate]
        omega
      unfold write_position ljust
      have hl2 : (data ++ List.replicate (g.block_size - data.length) 0).length
          = g.block_size := by simpa [ljust] using hlj
      rw [hl2]

set_option maxRecDepth 40000

/-- C1 (counterexample): on the freshly initialized geometry `g_mis`
(whose directory start, byte 32, is not a multiple of the 64-byte block
size), writing a 64-byte file — one extent, one block — succeeds, but reading
it back does not return the data: `write_block` places block 1 at byte
`1·64 + 32 = 96` while `read_block` fetches it from byte `(1+0)·64 = 64`, so
the read returns 32 stale directory bytes followed by only the first half of
the data. -/
theorem C1_counterexample :
    (write_file g_mis (initialize_disk g_mis) nameA typeB data_mis).toOption.isSome
        = true ∧
      ((write_file g_mis (initialize_disk g_mis) nameA typeB data_mis).toOption.bind
          (fun im => read_file g_mis im nameA typeB))
        ≠ some data_mis := by decide

/-- C2 (counterexample): the single extent planned for a one-block
(128-byte) file on `g_small` holds one block pointer, and `to_bytes`
serializes it to `16 + 1 = 17` bytes — not 32. -/
theorem C2_counterexample :
    (create_entries_for_file g_small (initialize_disk g_small) nameA typeB
          128).toOption.map
        (fun es => es.map (fun e => (e.to_bytes (Geom.use_16bit g_small)).length))
      = some [17] ∧ (17 : Nat) ≠ 32 := by decide

/-- C3: evaluating `delete_file` at a failing input: after writing file
"A.B" onto a fresh `g_small` disk, `delete_file "A"` finds the matching entry
and then executes `write_directory_entry(e, EMPTY_DIR * 32)` — the *integer*
`0xE5 * 32 = 7328` — so `f.write` raises TypeError and the handler in
`write_position` terminates the process with `exit(1)`; no entry is retired
and no block is zero-filled.  On a disk with no matching entry the scan
raises `FileNotFoundError` and the image is untouched. -/
theorem C3_delete_file_crashes :
    (write_file g_small (initialize_disk g_small) nameA typeB
          data_one_block).toOption.map
        (fun im => delete_file g_small im nameA)
      = some (.processExit 1) ∧
      delete_file g_small (initialize_disk g_small) nameA = .notFound := by decide

/-- C7 (counterexample): `initialize_disk` writes `drm + 1` directory
records, not `drm`: on `g_mis` (`drm = 1`) the status byte of slot index 1 —
the `(drm+1)`-th record, one past the claimed count — holds the 0xE5
sentinel, where a zero byte would remain had only `drm` records been
written over the zero fill. -/
theorem C7_counterexample :
    initialize_disk g_mis
        (Geom.directory_start g_mis + 32 * g_mis.drm) = EMPTY_DIR ∧
      EMPTY_DIR ≠ 0 := by decide

/-! ### Shared helper lemmas -/

theorem empty_entry_getD (j : Nat) :
    empty_entry.getD j 0 = if j = 0 then EMPTY_DIR else 0 := by
  match j with
  | 0 => rfl
  | j + 1 =>
    simp only [empty_entry, List.getD_cons_succ, if_neg (Nat.succ_ne_zero j)]
    rcases Nat.lt_or_ge j 31 with h | h
    · rw [List.getD_eq_getElem?_getD, List.getElem?_replicate]
      simp [h]
    · rw [List.getD_eq_getElem?_getD, List.getElem?_eq_none (by simpa using h)]
      rfl

theorem empty_entry_length : empty_entry.length = 32 := rfl

/-- Closed form for the image produced by writing `empty_entry` into the first
`m` directory slots of a zero-filled image: the status byte of each written
slot holds the sentinel, every other byte is zero. -/
theorem init_upto_apply (g : Geom) (m : Nat) (o : Nat) :
    init_upto g m o =
      if g.directory_start ≤ o ∧ o < g.directory_start + 32 * m ∧
          (o - g.directory_start) % 32 = 0
      then EMPTY_DIR else 0 := by
  induction m with
  | zero =>
    have : init_upto g 0 o = 0 := rfl
    rw [this]
    have hcond : ¬(g.directory_start ≤ o ∧ o < g.directory_start + 32 * 0 ∧
        (o - g.directory_start) % 32 = 0) := by omega
    rw [if_neg hcond]
  | succ m ih =>
    have hstep : init_upto g (m + 1)
        = write_directory_entry g (init_upto g m) m empty_entry := by
      unfold init_upto
      rw [List.range_succ, List.foldl_append]
      rfl
    rw [hstep]
    unfold write_directory_entry write_position
    rw [empty_entry_length, ih, empty_entry_getD]
    have hE : EMPTY_DIR ≠ 0 := by decide
    split_ifs <;> omega

theorem find_free_blocks_loop_cons_true (rest : List Bool) (idx : Nat) (n : Int)
    (acc : List Nat) :
    find_free_blocks_loop (true :: rest) idx n acc
      = if n - 1 = 0 then (acc ++ [idx], n - 1)
        else find_free_blocks_loop rest (idx + 1) (n - 1) (acc ++ [idx]) := by
  simp [find_free_blocks_loop]

theorem find_free_blocks_loop_cons_false (rest : List Bool) (idx : Nat) (n : Int)
    (acc : List Nat) :
    find_free_blocks_loop (false :: rest) idx n acc
      = if n = 0 then (acc, n)
        else find_free_blocks_loop rest (idx + 1) n acc := by
  simp [find_free_blocks_loop]

/-- Membership in the result of the first-fit loop comes either from the
accumulator or from a `true` status at some scanned index. -/
theorem find_free_blocks_loop_mem (l : List Bool) :
    ∀ (idx : Nat) (n : Int) (acc : List Nat) (b : Nat),
      b ∈ (find_free_blocks_loop l idx n acc).1 →
      b ∈ acc ∨ ∃ j, j < l.length ∧ l.getD j false = true ∧ b = idx + j := by
  induction l with
  | nil =>
    intro idx n acc b h
    exact Or.inl (by simpa [find_free_blocks_loop] using h)
  | cons s rest ih =>
    intro idx n acc b h
    by_cases hs : s
    · subst hs
      have hacc : b ∈ acc ++ [idx] →
          b ∈ acc ∨ ∃ j, j < (true :: rest).length ∧
            (true :: rest).getD j false = true ∧ b = idx + j := by
        intro hmem
        rcases List.mem_append.1 hmem with h1 | h1
        · exact Or.inl h1
        · exact Or.inr ⟨0, by simp, by simp, by simpa using List.mem_singleton.1 h1⟩
      rw [find_free_blocks_loop_cons_true] at h
      split at h
      · exact hacc h
      · rcases ih (idx + 1) _ _ b h with h1 | ⟨j, hjl, hjt, hjb⟩
        · exact hacc h1
        · refine Or.inr ⟨j + 1, by simpa using hjl, by simpa using hjt, by omega⟩
    · have hs' : s = false := by simpa using hs
      subst hs'
      rw [find_free_blocks_loop_cons_false] at h
      split at h
      · exact Or.inl h
      · rcases ih (idx + 1) _ _ b h with h1 | ⟨j, hjl, hjt, hjb⟩
        · exact Or.inl h1
        · refine Or.inr ⟨j + 1, by simpa using hjl, by simpa using hjt, by omega⟩

/-- A `true` flag in the block-status list only occurs at indices at or above
`directory_blocks`. -/
theorem blocks_status_true_ge (g : Geom) (directory : List CPMDirectoryEntry)
    (j : Nat)
    (hj : (get_blocks_status_from_directory g directory).getD j false = true) :
    g.directory_blocks ≤ j := by
  unfold get_blocks_status_from_directory at hj
  rcases Nat.lt_or_ge j (g.total_usable_blocks + 1).toNat with hlt | hge
  · rw [List.getD_eq_getElem?_getD, List.getElem?_map, List.getElem?_range hlt] at hj
    simp only [Option.map_some', Option.getD_some] at hj
    by_contra hdb
    rw [if_pos (by omega)] at hj
    exact absurd hj (by simp)
  · rw [List.getD_eq_getElem?_getD, List.getElem?_eq_none (by simpa using hge)] at hj
    exact absurd hj (by simp)

/-- Under a positive block size, `first_usable_block` always equals
`directory_blocks`: the subtractions in the derived geometry cancel exactly. -/
theorem first_usable_block_eq_directory_blocks (g : Geom)
    (hbs : 0 < g.block_size) :
    g.first_usable_block = g.directory_blocks := by
  unfold Geom.first_usable_block Geom.total_usable_blocks Geom.total_blocks
    Geom.data_area_start
  have hbz : ((g.block_size : Int)) ≠ 0 := by exact_mod_cast hbs.ne'
  have h1 : ((g.size : Int) - g.directory_blocks * g.block_size).fdiv g.block_size
      = (g.size : Int) / g.block_size - g.directory_blocks := by
    rw [Int.fdiv_eq_ediv _ (by positivity)]
    have := Int.add_mul_ediv_right (g.size : Int)
      (-(g.directory_blocks : Int)) hbz
    rw [show (g.size : Int) - g.directory_blocks * g.block_size
        = (g.size : Int) + -(g.directory_blocks : Int) * g.block_size by ring]
    rw [this]
    ring
  push_cast
  rw [h1]
  have h2 : ((g.size / g.block_size : Nat) : Int) = (g.size : Int) / g.block_size :=
    Int.ofNat_ediv g.size g.block_size
  rw [← h2]
  ring

/-- C10 (amended): called with `number_of_blocks = 0`, `find_free_blocks`
returns the empty list whenever the first block's status is "occupied" — in
particular whenever `directory_blocks ≥ 1` — because the countdown check is
already zero at the first iteration and the loop breaks before collecting
anything (it does not return the free blocks). -/
theorem C10_find_free_blocks_zero (g : Geom) (directory : List CPMDirectoryEntry)
    (h1 : 0 < g.directory_blocks) (h2 : 0 ≤ g.total_usable_blocks) :
    find_free_blocks g directory 0 = .ok [] := by
  obtain ⟨m, hm⟩ : ∃ m, (g.total_usable_blocks + 1).toNat = m + 1 :=
    ⟨(g.total_usable_blocks + 1).toNat - 1, by omega⟩
  have hget : (get_blocks_status_from_directory g directory).getD 0 false = false := by
    unfold get_blocks_status_from_directory
    rw [List.getD_eq_getElem?_getD, List.getElem?_map,
      List.getElem?_range (by omega : 0 < (g.total_usable_blocks + 1).toNat)]
    simp [h1]
  cases hl : get_blocks_status_from_directory g directory with
  | nil =>
    exfalso
    have hlen := congrArg List.length hl
    simp only [get_blocks_status_from_directory, List.length_map,
      List.length_range, List.length_nil] at hlen
    omega
  | cons x rest =>
    have hx : x = false := by rw [hl] at hget; simpa using hget
    subst hx
    calc find_free_blocks g directory 0
        = (if 0 < (find_free_blocks_loop
              (get_blocks_status_from_directory g directory) 0 0 []).2
           then .error "Not enough free space on the disk"
           else .ok (find_free_blocks_loop
              (get_blocks_status_from_directory g directory) 0 0 []).1) := rfl
      _ = .ok [] := by
          rw [hl, find_free_blocks_loop_cons_false, if_pos rfl]
          norm_num

/-- Witness for C10 at `g_mis` with an empty directory. -/
theorem C10_find_free_blocks_zero_witness :
    0 < Geom.directory_blocks g_mis ∧ 0 ≤ Geom.total_usable_blocks g_mis ∧
      find_free_blocks g_mis [] 0 = .ok [] :=
  ⟨by decide, by decide, C10_find_free_blocks_zero g_mis [] (by decide) (by decide)⟩

/-- C5: every block number handed out by the allocator (free bitmap from
the live directory followed by the first-fit scan) is at least
`first_usable_block`: the bitmap marks all indices below `directory_blocks`
used, and `first_usable_block` always equals `directory_blocks` when the
block size is positive. -/
theorem C5_allocator_first_usable (g : Geom) (directory : List CPMDirectoryEntry)
    (n : Int) (blocks : List Nat) (hbs : 0 < g.block_size)
    (h : find_free_blocks g directory n = .ok blocks) :
    ∀ b ∈ blocks, g.first_usable_block ≤ (b : Int) := by
  intro b hb
  rw [first_usable_block_eq_directory_blocks g hbs]
  have h' : (if 0 < (find_free_blocks_loop
        (get_blocks_status_from_directory g directory) 0 n []).2
      then (Except.error "Not enough free space on the disk"
        : Except String (List Nat))
      else .ok (find_free_blocks_loop
        (get_blocks_status_from_directory g directory) 0 n []).1)
      = .ok blocks := h
  split at h'
  · exact absurd h' (by simp)
  · have hblocks : (find_free_blocks_loop
        (get_blocks_status_from_directory g directory) 0 n []).1 = blocks := by
      simpa using h'
    rw [← hblocks] at hb
    rcases find_free_blocks_loop_mem _ 0 n [] b hb with h1 | ⟨j, _, hjt, hjb⟩
    · exact absurd h1 (by simp)
    · have := blocks_status_true_ge g directory j hjt
      have hbj : b = j := by omega
      subst hbj
      exact_mod_cast this

/-- Witness for C5 at `g_small`, empty directory, one requested block. -/
theorem C5_allocator_first_usable_witness :
    0 < Geom.block_size g_small ∧ find_free_blocks g_small [] 1 = .ok [1] ∧
      ∀ b ∈ ([1] : List Nat), Geom.first_usable_block g_small ≤ (b : Int) :=
  ⟨by decide, by decide,
    C5_allocator_first_usable g_small [] 1 [1] (by decide) (by decide)⟩

/-- C7 (amended): `initialize` zero-fills the entire image and then writes
`directoryMaxEntries + 1` (that is `drm + 1`, not `drm`) unused records:
the resulting image holds the 0xE5 sentinel exactly at the status byte of
slots `0 … drm` and zero everywhere else. -/
theorem C7_initialize_layout (g : Geom) (o : Nat) :
    initialize_disk g o =
      if g.directory_start ≤ o ∧ o < g.directory_start + 32 * (g.drm + 1) ∧
          (o - g.directory_start) % 32 = 0
      then EMPTY_DIR else 0 :=
  init_upto_apply g (g.drm + 1) o

theorem encode16_length (l : List Nat) : (encode16 l).length = 2 * l.length := by
  induction l with
  | nil => rfl
  | cons a rest ih =>
    simp only [encode16, List.map_cons, List.flatten_cons, List.length_append,
      List.length_cons, List.length_nil]
    simp only [encode16] at ih
    omega

theorem ljust_length (s : List Nat) (w fill : Nat) :
    (ljust s w fill).length = max w s.length := by
  simp only [ljust, List.length_append, List.length_replicate]
  omega

theorem to_bytes_make_length (u : Bool) (user : Nat) (fn ft : List Nat)
    (el eh rc : Nat) (ba : List Nat)
    (hn : (upperAscii (sanitizeFilename fn)).length ≤ 8)
    (ht : (upperAscii (sanitizeFiletype ft)).length ≤ 3) :
    ((CPMDirectoryEntry.make u user fn ft el eh rc ba).to_bytes u).length
      = 16 + (if u then 2 else 1)
          * (CPMDirectoryEntry.make u user fn ft el eh rc ba).block_allocation.length := by
  unfold CPMDirectoryEntry.make CPMDirectoryEntry.to_bytes
  cases u <;>
    simp only [Bool.false_eq_true, if_false, if_true, List.length_append,
      List.length_cons, List.length_nil, encode16_length, ljust_length] <;>
    omega

/-- Every entry produced by the planner loop is built by the
`CPMDirectoryEntry` constructor with user 0 and the caller's names. -/
theorem create_entries_loop_shape (g : Geom) (filename filetype : List Nat)
    (blocks : List Nat) (records_per_extent : Nat) :
    ∀ (fuel i : Nat) (dl : Int) (e : CPMDirectoryEntry),
      e ∈ create_entries_loop g filename filetype blocks records_per_extent fuel i dl →
      ∃ el rc ba, e = CPMDirectoryEntry.make g.use_16bit 0 filename filetype el 0 rc ba := by
  intro fuel
  induction fuel with
  | zero =>
    intro i dl e he
    exact absurd he (by simp [create_entries_loop])
  | succ fuel ih =>
    intro i dl e he
    rw [create_entries_loop] at he
    rcases List.mem_cons.1 he with h1 | h1
    · exact ⟨_, _, _, h1⟩
    · exact ih _ _ e h1

/-- C2 (amended): `empty_entry` records are exactly 32 bytes, but an entry
produced by the extent planner serializes via `to_bytes` to
`16 + w · |slice|` bytes (`w` = 2 in 16-bit mode, 1 in 8-bit mode) — exactly
32 only when its block slice holds `blocks_per_entry` pointers; a last extent
with a short slice serializes to fewer than 32 bytes. -/
theorem C2_planner_entry_sizes (g : Geom) (img : Image)
    (filename filetype : List Nat) (data_length : Nat)
    (entries : List CPMDirectoryEntry)
    (hn : (upperAscii (sanitizeFilename filename)).length ≤ 8)
    (ht : (upperAscii (sanitizeFiletype filetype)).length ≤ 3)
    (h : create_entries_for_file g img filename filetype data_length = .ok entries) :
    empty_entry.length = 32 ∧
      ∀ e ∈ entries,
        (e.to_bytes g.use_16bit).length
            = 16 + (if g.use_16bit then 2 else 1) * e.block_allocation.length
          ∧ (e.block_allocation.length = g.blocks_per_entry →
              (e.to_bytes g.use_16bit).length = 32) := by
  refine ⟨rfl, ?_⟩
  intro e he
  have h' : Except.map (fun blocks => create_entries_loop g filename filetype blocks
      (g.block_size * g.blocks_per_entry)
      (ceilNat (ceilNat data_length g.block_size) g.blocks_per_entry) 0
      (data_length : Int))
      (find_free_blocks g (read_directory g img)
        ((ceilNat data_length g.block_size : Nat) : Int))
      = .ok entries := h
  cases hfb : find_free_blocks g (read_directory g img)
      ((ceilNat data_length g.block_size : Nat) : Int) with
  | error msg => rw [hfb] at h'; exact absurd h' (by simp [Except.map])
  | ok blocks =>
    rw [hfb] at h'
    have hent : create_entries_loop g filename filetype blocks
        (g.block_size * g.blocks_per_entry)
        (ceilNat (ceilNat data_length g.block_size) g.blocks_per_entry) 0
        (data_length : Int) = entries := by
      simpa [Except.map] using h'
    rw [← hent] at he
    obtain ⟨el, rc, ba, rfl⟩ := create_entries_loop_shape g filename filetype
      blocks _ _ _ _ _ he
    have hlen := to_bytes_make_length g.use_16bit 0 filename filetype el 0 rc ba hn ht
    refine ⟨hlen, ?_⟩
    intro hfull
    rw [hlen, hfull]
    by_cases hu : g.use_16bit <;>
      simp [Geom.blocks_per_entry, hu]

/-- Witness for C2 on `g_small` with a one-block file: the planner produces
one entry holding a single 8-bit pointer, and `16 + 1·1 = 17` bytes. -/
theorem C2_planner_entry_sizes_witness :
    (upperAscii (sanitizeFilename nameA)).length ≤ 8 ∧
      (upperAscii (sanitizeFiletype typeB)).length ≤ 3 ∧
      create_entries_for_file g_small (initialize_disk g_small) nameA typeB 128
        = .ok [⟨0, [65, 32, 32, 32, 32, 32, 32, 32], [66, 32, 32], 0, 0, 0, 2,
            [1], 0, false⟩] ∧
      (empty_entry.length = 32 ∧
        ∀ e ∈ [(⟨0, [65, 32, 32, 32, 32, 32, 32, 32], [66, 32, 32], 0, 0, 0, 2,
            [1], 0, false⟩ : CPMDirectoryEntry)],
          (e.to_bytes (Geom.use_16bit g_small)).length
              = 16 + (if Geom.use_16bit g_small then 2 else 1)
                  * e.block_allocation.length
            ∧ (e.block_allocation.length = Geom.blocks_per_entry g_small →
                (e.to_bytes (Geom.use_16bit g_small)).length = 32)) :=
  ⟨by decide, by decide, by decide,
    C2_planner_entry_sizes g_small (initialize_disk g_small) nameA typeB 128 _
      (by decide) (by decide) (by decide)⟩

/-! ### Basic facts about the byte-level primitives -/

theorem read_position_length (img : Image) (position size : Nat) :
    (read_position img position size).length = size := by
  simp [read_position]

theorem read_position_getElem (img : Image) (position size j : Nat) (hj : j < size) :
    (read_position img position size).getD j 0 = img (position + j) := by
  unfold read_position
  rw [List.getD_eq_getElem?_getD, List.getElem?_map, List.getElem?_range hj]
  rfl

theorem pySlice_length (data : List Nat) (a b : Nat) (h : b ≤ data.length)
    (hab : a ≤ b) : (pySlice data a b).length = b - a := by
  simp only [pySlice, List.length_take, List.length_drop]
  omega

theorem pySlice_getD (data : List Nat) (a b j : Nat) (hj : j < b - a) :
    (pySlice data a b).getD j 0 = data.getD (a + j) 0 := by
  unfold pySlice
  rw [List.getD_eq_getElem?_getD, List.getElem?_take_of_lt hj,
    List.getElem?_drop, List.getD_eq_getElem?_getD]

theorem ljust_eq_self (s : List Nat) (w fill : Nat) (h : s.length = w) :
    ljust s w fill = s := by
  simp [ljust, h]

theorem ceilNat_mul_self (k b : Nat) (hb : 0 < b) : ceilNat (k * b) b = k := by
  unfold ceilNat
  rw [show k * b + b - 1 = b - 1 + b * k by ring_nf; omega,
    Nat.add_mul_div_left _ _ hb, Nat.div_eq_of_lt (by omega)]
  omega

theorem ceilNat_eq_one (k b : Nat) (h1 : 1 ≤ k) (h2 : k ≤ b) : ceilNat k b = 1 := by
  unfold ceilNat
  exact Nat.div_eq_of_lt_le (by omega) (by omega)

theorem ceilInt_ofNat (a b : Nat) (hb : 0 < b) :
    ceilInt (a : Int) b = ((ceilNat a b : Nat) : Int) := by
  unfold ceilInt ceilNat
  rw [show (a : Int) + b - 1 = ((a + b - 1 : Nat) : Int) by omega]
  rw [Int.fdiv_eq_ediv _ (by positivity)]
  exact (Int.ofNat_ediv _ _).symm

/-- Fact that `a ≤ ⌈a/b⌉ · b` for positive `b`. -/
theorem ceilNat_mul_ge (a b : Nat) (hb : 0 < b) : a ≤ ceilNat a b * b := by
  unfold ceilNat
  rw [Nat.mul_comm]
  have h := Nat.div_add_mod (a + b - 1) b
  have hlt := Nat.mod_lt (a + b - 1) hb
  omega

/-- The directory area (`drm` 32-byte records) fits inside the
`directory_blocks` blocks reserved for it. -/
theorem directory_size_le (g : Geom) (hbs : 0 < g.block_size) :
    g.directory_size ≤ g.directory_blocks * g.block_size :=
  ceilNat_mul_ge g.directory_size g.block_size hbs

theorem directory_blocks_pos (g : Geom) (hbs : 0 < g.block_size) (hdrm : 0 < g.drm) :
    0 < g.directory_blocks := by
  have h : 1 * g.block_size ≤ g.directory_size + g.block_size - 1 := by
    unfold Geom.directory_size
    omega
  exact (Nat.le_div_iff_mul_le hbs).mpr h

/-! ### The freshly initialized disk -/

/-- On a freshly initialized disk every scanned record carries the unused
sentinel, so `read_directory` yields the empty list. -/
theorem read_directory_init (g : Geom) :
    read_directory g (initialize_disk g) = [] := by
  unfold read_directory
  rw [List.filterMap_eq_nil_iff]
  intro e he
  have he' : e < g.drm := List.mem_range.mp he
  have hbyte : (read_directory_entry g (initialize_disk g) e).getD 0 0 = EMPTY_DIR := by
    unfold read_directory_entry
    rw [read_position_getElem _ _ _ 0 (by omega)]
    unfold initialize_disk
    rw [init_upto_apply, if_pos (by omega)]
  have hbyte' : (read_directory_entry g (initialize_disk g) e)[0]?.getD 0
      = EMPTY_DIR := by
    rw [← List.getD_eq_getElem?_getD]
    exact hbyte
  simp [hbyte']

/-- On a fresh (empty) directory the status list is `directory_blocks`
occupied flags followed by free flags. -/
theorem blocks_status_init (g : Geom)
    (hdb : g.directory_blocks ≤ (g.total_usable_blocks + 1).toNat) :
    get_blocks_status_from_directory g []
      = List.replicate g.directory_blocks false
        ++ List.replicate ((g.total_usable_blocks + 1).toNat - g.directory_blocks)
            true := by
  unfold get_blocks_status_from_directory get_used_blocks_from_directory
  rw [show (g.total_usable_blocks + 1).toNat
      = g.directory_blocks + ((g.total_usable_blocks + 1).toNat - g.directory_blocks)
    by omega]
  rw [List.range_add, List.map_append]
  congr 1
  · rw [List.eq_replicate_iff]
    refine ⟨by simp, ?_⟩
    intro x hx
    rcases List.mem_map.mp hx with ⟨b, hb, rfl⟩
    rw [if_pos (List.mem_range.mp hb)]
  · rw [List.eq_replicate_iff]
    refine ⟨by simp, ?_⟩
    intro x hx
    rcases List.mem_map.mp hx with ⟨b, hb, rfl⟩
    rcases List.mem_map.mp hb with ⟨c, _, rfl⟩
    rw [if_neg (by omega)]
    simp

/-- Skipping a prefix of occupied flags leaves the loop unchanged apart from
the index, as long as the countdown has not hit zero. -/
theorem find_free_blocks_loop_skip_false (p : Nat) :
    ∀ (rest : List Bool) (idx : Nat) (n : Int) (acc : List Nat), n ≠ 0 →
      find_free_blocks_loop (List.replicate p false ++ rest) idx n acc
        = find_free_blocks_loop rest (idx + p) n acc := by
  induction p with
  | zero => intro rest idx n acc _; rfl
  | succ p ih =>
    intro rest idx n acc hn
    rw [List.replicate_succ, List.cons_append, find_free_blocks_loop_cons_false,
      if_neg hn, ih rest (idx + 1) n acc hn]
    congr 1
    omega

/-- Scanning `m` free flags with a positive countdown `k ≤ m` collects exactly
the next `k` indices and stops with the countdown at zero. -/
theorem find_free_blocks_loop_take_true (k : Nat) :
    ∀ (m : Nat) (rest : List Bool) (idx : Nat) (acc : List Nat),
      1 ≤ k → k ≤ m →
      find_free_blocks_loop (List.replicate m true ++ rest) idx (k : Int) acc
        = (acc ++ (List.range k).map (fun j => idx + j), 0) := by
  induction k with
  | zero => intro m rest idx acc h1 _; omega
  | succ k ih =>
    intro m rest idx acc _ h2
    obtain ⟨m', rfl⟩ : ∃ m', m = m' + 1 := ⟨m - 1, by omega⟩
    rw [List.replicate_succ, List.cons_append, find_free_blocks_loop_cons_true]
    rcases Nat.eq_zero_or_pos k with hk | hk
    · subst hk
      rw [if_pos (by norm_num)]
      norm_num [List.range_succ]
    · rw [if_neg (by push_cast; omega)]
      rw [show (((k + 1 : Nat) : Int) - 1) = ((k : Nat) : Int) by push_cast; ring]
      rw [ih m' rest (idx + 1) (acc ++ [idx]) hk (by omega)]
      rw [List.append_assoc]
      refine congrArg (fun x => (acc ++ x, (0 : Int))) ?_
      rw [List.range_succ_eq_map, List.map_cons, List.map_map]
      rw [List.singleton_append]
      refine congrArg₂ List.cons (by omega) ?_
      apply List.map_congr_left
      intro j _
      simp only [Function.comp_apply]
      omega

/-- First-fit allocation on a fresh disk returns the `k` blocks immediately
after the directory area. -/
theorem find_free_blocks_init (g : Geom) (k : Nat) (hk : 1 ≤ k)
    (hfit : (g.directory_blocks : Int) + k ≤ g.total_usable_blocks + 1) :
    find_free_blocks g [] (k : Int)
      = .ok ((List.range k).map (fun j => g.directory_blocks + j)) := by
  have htub : (0 : Int) ≤ g.total_usable_blocks := by omega
  have hdb : g.directory_blocks ≤ (g.total_usable_blocks + 1).toNat := by omega
  have hdbk : g.directory_blocks + k ≤ (g.total_usable_blocks + 1).toNat := by omega
  have hloop : find_free_blocks_loop (get_blocks_status_from_directory g []) 0
        (k : Int) []
      = ((List.range k).map (fun j => g.directory_blocks + j), 0) := by
    rw [blocks_status_init g hdb]
    rw [find_free_blocks_loop_skip_false _ _ _ _ _ (by exact_mod_cast (by omega : ¬(k : Int) = 0))]
    rw [show List.replicate ((g.total_usable_blocks + 1).toNat - g.directory_blocks) true
        = List.replicate ((g.total_usable_blocks + 1).toNat - g.directory_blocks) true ++ [] by simp]
    rw [find_free_blocks_loop_take_true k _ [] _ [] hk (by omega)]
    simp
  calc find_free_blocks g [] (k : Int)
      = (if 0 < (find_free_blocks_loop (get_blocks_status_from_directory g []) 0
            (k : Int) []).2
         then .error "Not enough free space on the disk"
         else .ok (find_free_blocks_loop (get_blocks_status_from_directory g []) 0
            (k : Int) []).1) := rfl
    _ = _ := by rw [hloop]; norm_num

/-- Planning a `k·block_size`-byte file (one extent) on a freshly initialized
disk yields exactly one entry: user 0, extent 0, record count
`ceil(size / sector_size)`, and the `k` blocks right after the directory. -/
theorem create_entries_init (g : Geom) (fn ft : List Nat) (k : Nat)
    (hbs : 0 < g.block_size) (hss : 0 < g.sector_size)
    (hk1 : 1 ≤ k) (hk2 : k ≤ g.blocks_per_entry)
    (hfit : (g.directory_blocks : Int) + k ≤ g.total_usable_blocks + 1) :
    create_entries_for_file g (initialize_disk g) fn ft (k * g.block_size)
      = .ok [CPMDirectoryEntry.make g.use_16bit 0 fn ft 0 0
          (ceilNat (k * g.block_size) g.sector_size)
          ((List.range k).map (fun j => g.directory_blocks + j))] := by
  have h1 : ceilNat (k * g.block_size) g.block_size = k := ceilNat_mul_self k _ hbs
  have h2 : ceilNat k g.blocks_per_entry = 1 := ceilNat_eq_one _ _ hk1 hk2
  have hmin : min ((k * g.block_size : Nat) : Int)
        ((g.block_size * g.blocks_per_entry : Nat) : Int)
      = ((k * g.block_size : Nat) : Int) := by
    apply min_eq_left
    have hle : k * g.block_size ≤ g.block_size * g.blocks_per_entry := by
      calc k * g.block_size ≤ g.blocks_per_entry * g.block_size :=
            Nat.mul_le_mul_right _ hk2
        _ = g.block_size * g.blocks_per_entry := Nat.mul_comm _ _
    exact_mod_cast hle
  have hrc : ceilInt ((k * g.block_size : Nat) : Int) g.sector_size
      = ((ceilNat (k * g.block_size) g.sector_size : Nat) : Int) :=
    ceilInt_ofNat _ _ hss
  have halloc : (((List.range k).map
        (fun j => g.directory_blocks + j)).drop (0 * g.blocks_per_entry)).take
          g.blocks_per_entry
      = (List.range k).map (fun j => g.directory_blocks + j) := by
    rw [Nat.zero_mul, List.drop_zero]
    apply List.take_of_length_le
    simpa using hk2
  calc create_entries_for_file g (initialize_disk g) fn ft (k * g.block_size)
      = Except.map (fun blocks => create_entries_loop g fn ft blocks
          (g.block_size * g.blocks_per_entry)
          (ceilNat (ceilNat (k * g.block_size) g.block_size) g.blocks_per_entry) 0
          ((k * g.block_size : Nat) : Int))
          (find_free_blocks g (read_directory g (initialize_disk g))
            ((ceilNat (k * g.block_size) g.block_size : Nat) : Int)) := rfl
    _ = .ok (create_entries_loop g fn ft
          ((List.range k).map (fun j => g.directory_blocks + j))
          (g.block_size * g.blocks_per_entry) 1 0 ((k * g.block_size : Nat) : Int)) := by
        rw [read_directory_init, h1, h2, find_free_blocks_init g k hk1 hfit]
        rfl
    _ = _ := by
        simp only [create_entries_loop, hmin, hrc, halloc, Int.toNat_ofNat]

/-- Writing the `c` consecutive blocks `db + i, …, db + i + c - 1` (the slices
`i, …, i + c - 1` of `data`) lays `data` down contiguously from byte
`directory_start + db·block_size + i·block_size` on. -/
theorem write_blocks_loop_init (g : Geom) (data : List Nat) (db k : Nat)
    (hbs : 0 < g.block_size) (hlen : data.length = k * g.block_size) :
    ∀ (c i : Nat) (img : Image), i + c = k →
      write_blocks_loop g data img ((List.range c).map (fun j => db + i + j)) i
        = .ok (fun o =>
            if g.directory_start + db * g.block_size + i * g.block_size ≤ o ∧
                o < g.directory_start + db * g.block_size + k * g.block_size
            then data.getD (o - (g.directory_start + db * g.block_size)) 0
            else img o) := by
  intro c
  induction c with
  | zero =>
    intro i img hik
    have hik' : i = k := by omega
    subst hik'
    rw [List.range_zero, List.map_nil]
    show Except.ok img = _
    refine congrArg Except.ok ?_
    funext o
    rw [if_neg (by omega)]
  | succ c ih =>
    intro i img hik
    have hi1 : i + 1 ≤ k := by omega
    have e1 : (i + 1) * g.block_size = i * g.block_size + g.block_size := by ring
    have e2 : (db + i) * g.block_size = db * g.block_size + i * g.block_size := by
      ring
    have hmono : i * g.block_size + g.block_size ≤ k * g.block_size := by
      have := Nat.mul_le_mul_right g.block_size hi1
      omega
    have hmap : (List.range (c + 1)).map (fun j => db + i + j)
        = (db + i) :: (List.range c).map (fun j => db + (i + 1) + j) := by
      rw [List.range_succ_eq_map, List.map_cons, List.map_map]
      refine congrArg₂ List.cons (by omega) ?_
      apply List.map_congr_left
      intro j _
      simp only [Function.comp_apply]
      omega
    rw [hmap]
    have hslice_len : (pySlice data (i * g.block_size)
        (i * g.block_size + g.block_size)).length = g.block_size := by
      rw [pySlice_length data _ _ (by omega) (by omega)]
      omega
    have hwb : write_block g img (db + i)
        (pySlice data (i * g.block_size) (i * g.block_size + g.block_size))
        = .ok (write_position img ((db + i) * g.block_size + g.directory_start)
            (pySlice data (i * g.block_size) (i * g.block_size + g.block_size))) := by
      unfold write_block
      rw [if_neg (by omega), ljust_eq_self _ _ _ hslice_len]
    rw [show write_blocks_loop g data img
        ((db + i) :: (List.range c).map (fun j => db + (i + 1) + j)) i
        = Except.bind (write_block g img (db + i)
            (pySlice data (i * g.block_size) (i * g.block_size + g.block_size)))
          (fun img' => write_blocks_loop g data img'
            ((List.range c).map (fun j => db + (i + 1) + j)) (i + 1)) from rfl]
    rw [hwb]
    rw [show Except.bind (Except.ok (write_position img
          ((db + i) * g.block_size + g.directory_start)
          (pySlice data (i * g.block_size) (i * g.block_size + g.block_size))))
        (fun img' => write_blocks_loop g data img'
          ((List.range c).map (fun j => db + (i + 1) + j)) (i + 1))
        = write_blocks_loop g data (write_position img
          ((db + i) * g.block_size + g.directory_start)
          (pySlice data (i * g.block_size) (i * g.block_size + g.block_size)))
          ((List.range c).map (fun j => db + (i + 1) + j)) (i + 1) from rfl]
    rw [ih (i + 1) _ (by omega)]
    refine congrArg Except.ok ?_
    funext o
    unfold write_position
    rw [hslice_len]
    by_cases h1 : g.directory_start + db * g.block_size + (i + 1) * g.block_size ≤ o
        ∧ o < g.directory_start + db * g.block_size + k * g.block_size
    · rw [if_pos h1, if_pos (by omega)]
    · rw [if_neg h1]
      by_cases h2 : (db + i) * g.block_size + g.directory_start ≤ o
          ∧ o < (db + i) * g.block_size + g.directory_start + g.block_size
      · rw [if_pos h2, if_pos (by omega)]
        rw [pySlice_getD data _ _ _ (by omega)]
        refine congrArg₂ _ ?_ rfl
        omega
      · rw [if_neg h2, if_neg (by omega)]

/-! ### Name handling -/

theorem goodChar_not_ws (c : Nat) (h : goodChar c) : isPyWhitespace c = false := by
  unfold goodChar at h
  unfold isPyWhitespace
  simp only [Bool.or_eq_false_iff, beq_eq_false_iff_ne]
  omega

theorem goodChar_ne_zero (c : Nat) (h : goodChar c) : c ≠ 0 := by
  unfold goodChar at h
  omega

theorem sanitizeFilename_eq_self (s : List Nat) (h : ∀ c ∈ s, goodChar c) :
    sanitizeFilename s = s := by
  unfold sanitizeFilename
  apply List.filter_eq_self.mpr
  intro c hc
  have hg := h c hc
  unfold goodChar at hg
  have hmem : ¬ c ∈ forbiddenNameChars := by
    unfold forbiddenNameChars
    simp only [List.mem_cons, List.not_mem_nil, or_false]
    omega
  simp only [Bool.not_eq_true']
  exact Bool.eq_false_iff.mpr (fun hcon => hmem (List.elem_iff.mp hcon))

theorem sanitizeFiletype_eq_self (s : List Nat) (h : ∀ c ∈ s, goodChar c) :
    sanitizeFiletype s = s := by
  unfold sanitizeFiletype
  apply List.filter_eq_self.mpr
  intro c hc
  have := h c hc
  unfold goodChar at this
  simp only [bne_iff_ne, ne_eq]
  omega

theorem upperAscii_eq_self (s : List Nat) (h : ∀ c ∈ s, goodChar c) :
    upperAscii s = s := by
  unfold upperAscii
  have hpt : ∀ c ∈ s, (if 97 ≤ c ∧ c ≤ 122 then c - 32 else c) = id c := by
    intro c hc
    have := h c hc
    unfold goodChar at this
    rw [if_neg (by omega)]
    rfl
  rw [List.map_congr_left hpt, List.map_id]

theorem dropWhile_ws_replicate_space (m : Nat) (l : List Nat) :
    (List.replicate m 32 ++ l).dropWhile isPyWhitespace
      = l.dropWhile isPyWhitespace := by
  induction m with
  | zero => rfl
  | succ m ih =>
    rw [List.replicate_succ, List.cons_append, List.dropWhile_cons_of_pos (by rfl)]
    exact ih

theorem dropWhile_ws_eq_self (l : List Nat) (h : ∀ c ∈ l, isPyWhitespace c = false) :
    l.dropWhile isPyWhitespace = l := by
  cases l with
  | nil => rfl
  | cons a l => exact List.dropWhile_cons_of_neg (by simp [h a (by simp)])

theorem rstripWs_append_spaces (s : List Nat) (m : Nat)
    (h : ∀ c ∈ s, goodChar c) : rstripWs (s ++ List.replicate m 32) = s := by
  unfold rstripWs
  rw [List.reverse_append, List.reverse_replicate, dropWhile_ws_replicate_space,
    dropWhile_ws_eq_self _ (fun c hc => goodChar_not_ws c (h c (List.mem_reverse.mp hc))),
    List.reverse_reverse]

theorem stripWs_append_spaces (s : List Nat) (m : Nat)
    (h : ∀ c ∈ s, goodChar c) : stripWs (s ++ List.replicate m 32) = s := by
  unfold stripWs
  cases s with
  | nil =>
    rw [List.nil_append]
    rw [show (List.replicate m 32).dropWhile isPyWhitespace
        = (([] : List Nat).dropWhile isPyWhitespace) by
      simpa using dropWhile_ws_replicate_space m []]
    rfl
  | cons a s =>
    rw [List.cons_append, List.dropWhile_cons_of_neg
      (by simp [goodChar_not_ws a (h a (by simp))]), ← List.cons_append]
    exact rstripWs_append_spaces (a :: s) m h

theorem rstripWs_eq_self (l : List Nat) (h : ∀ c ∈ l, isPyWhitespace c = false) :
    rstripWs l = l := by
  unfold rstripWs
  rw [dropWhile_ws_eq_self _ (fun c hc => h c (List.mem_reverse.mp hc)),
    List.reverse_reverse]

theorem stripWs_eq_self (l : List Nat) (h : ∀ c ∈ l, isPyWhitespace c = false) :
    stripWs l = l := by
  unfold stripWs
  rw [dropWhile_ws_eq_self _ h]
  exact rstripWs_eq_self l h

/-! ### Pointer-list round trips and block concatenation -/

theorem decode16_replicate_zero (m : Nat) :
    decode16 (List.replicate (2 * m) 0) = List.replicate m 0 := by
  induction m with
  | zero => rfl
  | succ m ih =>
    rw [show 2 * (m + 1) = 2 * m + 1 + 1 by ring, List.replicate_succ,
      List.replicate_succ]
    show decode16 (0 :: 0 :: List.replicate (2 * m) 0) = _
    rw [show decode16 (0 :: 0 :: List.replicate (2 * m) 0)
        = (0 + 256 * 0) :: decode16 (List.replicate (2 * m) 0) from rfl]
    rw [ih, List.replicate_succ]

theorem decode16_encode16_append (l : List Nat) (m : Nat)
    (h : ∀ b ∈ l, b < 65536) :
    decode16 (encode16 l ++ List.replicate (2 * m) 0)
      = l ++ List.replicate m 0 := by
  induction l with
  | nil => simpa [encode16] using decode16_replicate_zero m
  | cons b rest ih =>
    have hb : b < 65536 := h b (by simp)
    rw [show encode16 (b :: rest) = b % 256 :: b / 256 % 256 :: encode16 rest
      from rfl]
    rw [List.cons_append, List.cons_append]
    rw [show decode16 (b % 256 :: b / 256 % 256
          :: (encode16 rest ++ List.replicate (2 * m) 0))
        = (b % 256 + 256 * (b / 256 % 256))
          :: decode16 (encode16 rest ++ List.replicate (2 * m) 0) from rfl]
    rw [ih (fun x hx => h x (by simp [hx]))]
    rw [Nat.mod_eq_of_lt (by omega : b / 256 < 256), Nat.mod_add_div b 256]
    rfl

theorem takeWhile_ne_zero_append (l : List Nat) (m : Nat)
    (h : ∀ b ∈ l, b ≠ 0) :
    (l ++ List.replicate m 0).takeWhile (fun block => block ≠ 0) = l := by
  induction l with
  | nil =>
    cases m with
    | zero => rfl
    | succ m => rw [List.nil_append, List.replicate_succ,
        List.takeWhile_cons_of_neg (by simp)]
  | cons a rest ih =>
    rw [List.cons_append,
      List.takeWhile_cons_of_pos (by simpa using h a (by simp)),
      ih (fun x hx => h x (by simp [hx]))]

/-- Concatenating the `k` block-sized slices of `data` reconstructs `data`. -/
theorem flatten_slices (k : Nat) :
    ∀ (data : List Nat) (bs : Nat), data.length = k * bs →
      ((List.range k).map (fun i => pySlice data (i * bs) (i * bs + bs))).flatten
        = data := by
  induction k with
  | zero =>
    intro data bs h
    rw [List.range_zero, List.map_nil, List.flatten_nil]
    exact (List.eq_nil_of_length_eq_zero (by omega)).symm
  | succ k ih =>
    intro data bs h
    rw [List.range_succ_eq_map, List.map_cons, List.map_map, List.flatten_cons]
    have hs0 : pySlice data (0 * bs) (0 * bs + bs) = data.take bs := by
      unfold pySlice
      rw [Nat.zero_mul, List.drop_zero]
      refine congrArg₂ _ ?_ rfl
      omega
    have hmap : ∀ i ∈ List.range k,
        ((fun i => pySlice data (i * bs) (i * bs + bs)) ∘ Nat.succ) i
          = pySlice (data.drop bs) (i * bs) (i * bs + bs) := by
      intro i _
      simp only [Function.comp_apply]
      unfold pySlice
      rw [List.drop_drop]
      refine congrArg₂ List.take ?_ (congrArg (fun n => List.drop n data) ?_)
      · omega
      · rw [Nat.succ_mul]
        omega
    rw [hs0, List.map_congr_left hmap,
      ih (data.drop bs) bs (by rw [List.length_drop, Nat.succ_mul] at *; omega)]
    exact List.take_append_drop bs data

/-- A positioned read equals a given list when the image agrees with it
byte-for-byte over the window. -/
theorem read_position_eq_of (img : Image) (pos size : Nat) (l : List Nat)
    (hlen : l.length = size)
    (h : ∀ j, j < size → img (pos + j) = l.getD j 0) :
    read_position img pos size = l := by
  apply List.ext_getElem
  · rw [read_position_length, hlen]
  · intro i h1 h2
    have h1' : i < size := by rwa [read_position_length] at h1
    have e1 : (read_position img pos size)[i]
        = (read_position img pos size).getD i 0 := by
      rw [List.getD_eq_getElem?_getD, List.getElem?_eq_getElem h1]
      rfl
    rw [e1, read_position_getElem _ _ _ _ h1', h i h1',
      List.getD_eq_getElem?_getD, List.getElem?_eq_getElem h2]
    rfl

/-- Decoding a 32-byte record laid out as
status / 8 name bytes / 3 type bytes / extent-low / extent-high / reserved /
record-count / 16 pointer bytes.  Note the asymmetry inherited from the
source: the byte written from `extent_high` (offset 13) is read back as
`reserved` (and dropped by the constructor), while the byte written from
`reserved` (offset 14) is read back as `extent_high`. -/
theorem from_bytes_parse (u : Bool) (st el eh res rc : Nat)
    (fn8 ft3 abtail : List Nat) (hfn : fn8.length = 8) (hft : ft3.length = 3) :
    CPMDirectoryEntry.from_bytes u
        ([st] ++ fn8 ++ ft3 ++ [el, eh] ++ [res] ++ [rc] ++ abtail)
      = CPMDirectoryEntry.make u st (rstripWs fn8) (rstripWs ft3) el res rc
          (if u then decode16 (abtail.take 16) else abtail.take 16) := by
  set L : List Nat := [st] ++ fn8 ++ ft3 ++ [el, eh] ++ [res] ++ [rc] ++ abtail
    with hL
  have hpre12 : L = ([st] ++ fn8 ++ ft3) ++ (el :: eh :: res :: rc :: abtail) := by
    rw [hL]
    simp
  have hlen12 : ([st] ++ fn8 ++ ft3).length = 12 := by
    simp [hfn, hft]
  have hdrop12 : L.drop 12 = el :: eh :: res :: rc :: abtail := by
    rw [hpre12]
    exact List.drop_left' hlen12
  have h0 : L.getD 0 0 = st := by rw [hL]; rfl
  have h12 : L.getD 12 0 = el := by
    rw [List.getD_eq_getElem?_getD,
      show (12 : Nat) = 12 + 0 from rfl, ← List.getElem?_drop, hdrop12]
    rfl
  have h14 : L.getD 14 0 = res := by
    rw [List.getD_eq_getElem?_getD,
      show (14 : Nat) = 12 + 2 from rfl, ← List.getElem?_drop, hdrop12]
    rfl
  have h15 : L.getD 15 0 = rc := by
    rw [List.getD_eq_getElem?_getD,
      show (15 : Nat) = 12 + 3 from rfl, ← List.getElem?_drop, hdrop12]
    simp
  have hs19 : pySlice L 1 9 = fn8 := by
    unfold pySlice
    rw [hL]
    rw [show [st] ++ fn8 ++ ft3 ++ [el, eh] ++ [res] ++ [rc] ++ abtail
        = st :: (fn8 ++ (ft3 ++ [el, eh] ++ [res] ++ [rc] ++ abtail)) by simp]
    rw [List.drop_succ_cons, List.drop_zero, List.take_left' hfn]
  have hs912 : pySlice L 9 12 = ft3 := by
    unfold pySlice
    rw [show L = ([st] ++ fn8) ++ (ft3 ++ ([el, eh] ++ [res] ++ [rc] ++ abtail))
      by rw [hL]; simp]
    rw [List.drop_left' (by simp [hfn])]
    exact List.take_left' hft
  have hs1632 : pySlice L 16 32 = abtail.take 16 := by
    unfold pySlice
    rw [show L = ([st] ++ fn8 ++ ft3 ++ [el, eh] ++ [res] ++ [rc]) ++ abtail
      by rw [hL]]
    rw [List.drop_left' (by simp [hfn, hft])]
  unfold CPMDirectoryEntry.from_bytes
  rw [h0, h12, h14, h15, hs19, hs912, hs1632]

theorem make_filename (u : Bool) (user : Nat) (fn ft : List Nat)
    (el eh rc : Nat) (ba : List Nat) :
    (CPMDirectoryEntry.make u user fn ft el eh rc ba).filename
      = ljust (upperAscii (sanitizeFilename fn)) 8 32 := rfl

theorem make_filetype (u : Bool) (user : Nat) (fn ft : List Nat)
    (el eh rc : Nat) (ba : List Nat) :
    (CPMDirectoryEntry.make u user fn ft el eh rc ba).filetype
      = ljust (upperAscii (sanitizeFiletype ft)) 3 32 := rfl

theorem make_block_allocation (u : Bool) (user : Nat) (fn ft : List Nat)
    (el eh rc : Nat) (ba : List Nat) (hba : ba.isEmpty = false) :
    (CPMDirectoryEntry.make u user fn ft el eh rc ba).block_allocation = ba := by
  unfold CPMDirectoryEntry.make
  simp [hba]

theorem to_bytes_make (u : Bool) (user : Nat) (fn ft : List Nat)
    (el eh rc : Nat) (ba : List Nat) (hba : ba.isEmpty = false) :
    (CPMDirectoryEntry.make u user fn ft el eh rc ba).to_bytes u
      = [user] ++ ljust (upperAscii (sanitizeFilename fn)) 8 32
        ++ ljust (upperAscii (sanitizeFiletype ft)) 3 32
        ++ [el, eh] ++ [0] ++ [rc] ++ (if u then encode16 ba else ba) := by
  unfold CPMDirectoryEntry.to_bytes CPMDirectoryEntry.make
  simp [hba]

theorem except_bind_ok {ε α β : Type} (a : α) (f : α → Except ε β) :
    (Except.ok a : Except ε α) >>= f = f a := rfl

theorem write_entries_loop_single (g : Geom) (img : Image)
    (e : CPMDirectoryEntry) (n : Nat)
    (h : find_free_directory_entry g img = some n) :
    write_entries_loop g img [e]
      = .ok (write_directory_entry g img n (e.to_bytes g.use_16bit)) := by
  unfold write_entries_loop
  rw [h]
  rfl

/-- Running `write_file` on a freshly initialized disk with a one-extent,
block-aligned payload: the data lands contiguously after the directory area
and the single planned record is written into slot 0. -/
theorem write_file_init (g : Geom) (filename filetype data : List Nat) (k : Nat)
    (hbs : 0 < g.block_size) (hss : 0 < g.sector_size) (hdrm : 0 < g.drm)
    (hlen : data.length = k * g.block_size)
    (hk1 : 1 ≤ k) (hk2 : k ≤ g.blocks_per_entry)
    (hfit : (g.directory_blocks : Int) + k ≤ g.total_usable_blocks + 1) :
    write_file g (initialize_disk g) filename filetype data
      = .ok (write_directory_entry g
          (fun o =>
            if g.directory_start + g.directory_blocks * g.block_size ≤ o ∧
                o < g.directory_start + g.directory_blocks * g.block_size
                  + k * g.block_size
            then data.getD
              (o - (g.directory_start + g.directory_blocks * g.block_size)) 0
            else initialize_disk g o)
          0 ((CPMDirectoryEntry.make g.use_16bit 0 filename filetype 0 0
              (ceilNat (k * g.block_size) g.sector_size)
              ((List.range k).map (fun j => g.directory_blocks + j))).to_bytes
            g.use_16bit)) := by
  have hdbpos : 0 < g.directory_blocks := directory_blocks_pos g hbs hdrm
  have hdirle : g.directory_size ≤ g.directory_blocks * g.block_size :=
    directory_size_le g hbs
  have hdir32 : 32 ≤ g.directory_blocks * g.block_size := by
    unfold Geom.directory_size at hdirle
    omega
  have hentry := create_entries_init g filename filetype k hbs hss hk1 hk2 hfit
  have halloc : (CPMDirectoryEntry.make g.use_16bit 0 filename filetype 0 0
        (ceilNat (k * g.block_size) g.sector_size)
        ((List.range k).map (fun j => g.directory_blocks + j))).block_allocation
      = (List.range k).map (fun j => g.directory_blocks + j) :=
    make_block_allocation _ _ _ _ _ _ _ _ (by
      rw [List.isEmpty_eq_false_iff_exists_mem]
      exact ⟨g.directory_blocks, List.mem_map.mpr ⟨0, List.mem_range.mpr hk1, rfl⟩⟩)
  have hloop := write_blocks_loop_init g data g.directory_blocks k hbs hlen k 0
    (initialize_disk g) (by omega)
  have hlist0 : (List.range k).map (fun j => g.directory_blocks + 0 + j)
      = (List.range k).map (fun j => g.directory_blocks + j) := by
    apply List.map_congr_left
    intro j _
    omega
  rw [hlist0] at hloop
  have hWeq : (fun o =>
        if g.directory_start + g.directory_blocks * g.block_size
              + 0 * g.block_size ≤ o ∧
            o < g.directory_start + g.directory_blocks * g.block_size
              + k * g.block_size
        then data.getD
          (o - (g.directory_start + g.directory_blocks * g.block_size)) 0
        else initialize_disk g o)
      = (fun o =>
        if g.directory_start + g.directory_blocks * g.block_size ≤ o ∧
            o < g.directory_start + g.directory_blocks * g.block_size
              + k * g.block_size
        then data.getD
          (o - (g.directory_start + g.directory_blocks * g.block_size)) 0
        else initialize_disk g o) := by
    funext o
    rw [Nat.zero_mul, Nat.add_zero]
  rw [hWeq] at hloop
  have hfind : find_free_directory_entry g (fun o =>
        if g.directory_start + g.directory_blocks * g.block_size ≤ o ∧
            o < g.directory_start + g.directory_blocks * g.block_size
              + k * g.block_size
        then data.getD
          (o - (g.directory_start + g.directory_blocks * g.block_size)) 0
        else initialize_disk g o)
      = some 0 := by
    unfold find_free_directory_entry
    obtain ⟨d', hd'⟩ : ∃ d', g.drm = d' + 1 := ⟨g.drm - 1, by omega⟩
    rw [hd', List.range_succ_eq_map, List.find?_cons_of_pos]
    have hb0 : (read_directory_entry g (fun o =>
          if g.directory_start + g.directory_blocks * g.block_size ≤ o ∧
              o < g.directory_start + g.directory_blocks * g.block_size
                + k * g.block_size
          then data.getD
            (o - (g.directory_start + g.directory_blocks * g.block_size)) 0
          else initialize_disk g o) 0).getD 0 0 = EMPTY_DIR := by
      unfold read_directory_entry
      rw [read_position_getElem _ _ _ 0 (by omega)]
      rw [if_neg (by omega)]
      unfold initialize_disk
      rw [init_upto_apply, if_pos (by omega)]
    rw [hb0]
    rfl
  unfold write_file
  rw [hlen, hentry]
  simp only [except_bind_ok]
  rw [show ([CPMDirectoryEntry.make g.use_16bit 0 filename filetype 0 0
        (ceilNat (k * g.block_size) g.sector_size)
        ((List.range k).map (fun j => g.directory_blocks + j))].map
      (fun entry => entry.block_allocation)).flatten
      = (List.range k).map (fun j => g.directory_blocks + j) by
    rw [List.map_cons, List.map_nil, halloc]
    simp]
  rw [hloop]
  simp only [except_bind_ok]
  exact write_entries_loop_single g _ _ 0 hfind

theorem getD_replicate_zero (n j : Nat) :
    (List.replicate n (0 : Nat)).getD j 0 = 0 := by
  rcases Nat.lt_or_ge j n with h | h
  · rw [List.getD_eq_getElem?_getD, List.getElem?_replicate, if_pos h]
    rfl
  · rw [List.getD_eq_getElem?_getD, List.getElem?_eq_none (by simpa using h)]
    rfl

/-- Reading back the image left by `write_file_init`: decoding slot 0 yields
the written record (its pointer list zero-padded to full width), every other
scanned slot still decodes as unused, and the data blocks hold the payload —
so `read_file` returns exactly the payload, provided the geometry's two block
offset bases coincide (`directory_start = off_blocks · block_size`). -/
theorem read_file_init (g : Geom) (filename filetype data : List Nat) (k : Nat)
    (hbs : 0 < g.block_size) (hdrm : 0 < g.drm)
    (hoff : g.directory_start = g.off_blocks * g.block_size)
    (hlen : data.length = k * g.block_size)
    (hk1 : 1 ≤ k) (hk2 : k ≤ g.blocks_per_entry)
    (hfn : ∀ c ∈ filename, goodChar c) (hfn8 : filename.length ≤ 8)
    (hft : ∀ c ∈ filetype, goodChar c) (hft3 : filetype.length ≤ 3)
    (hfit : (g.directory_blocks : Int) + k ≤ g.total_usable_blocks + 1)
    (htub : g.total_usable_blocks ≤ 65535) :
    read_file g (write_directory_entry g
        (fun o =>
          if g.directory_start + g.directory_blocks * g.block_size ≤ o ∧
              o < g.directory_start + g.directory_blocks * g.block_size
                + k * g.block_size
          then data.getD
            (o - (g.directory_start + g.directory_blocks * g.block_size)) 0
          else initialize_disk g o)
        0 ((CPMDirectoryEntry.make g.use_16bit 0 filename filetype 0 0
            (ceilNat (k * g.block_size) g.sector_size)
            ((List.range k).map (fun j => g.directory_blocks + j))).to_bytes
          g.use_16bit)) filename filetype
      = some data := by
  have hdbpos : 0 < g.directory_blocks := directory_blocks_pos g hbs hdrm
  have hdirle : g.directory_size ≤ g.directory_blocks * g.block_size :=
    directory_size_le g hbs
  have hdir32' : 32 * g.drm ≤ g.directory_blocks * g.block_size := by
    unfold Geom.directory_size at hdirle
    omega
  have hdir32 : 32 ≤ g.directory_blocks * g.block_size := by omega
  have hfneq : upperAscii (sanitizeFilename filename) = filename := by
    rw [sanitizeFilename_eq_self _ hfn, upperAscii_eq_self _ hfn]
  have hfteq : upperAscii (sanitizeFiletype filetype) = filetype := by
    rw [sanitizeFiletype_eq_self _ hft, upperAscii_eq_self _ hft]
  set rc := ceilNat (k * g.block_size) g.sector_size with hrcdef
  set blocksList := (List.range k).map (fun j => g.directory_blocks + j) with hbl
  have hbllen : blocksList.length = k := by simp [hbl]
  have hblne : blocksList.isEmpty = false := by
    rw [List.isEmpty_eq_false_iff_exists_mem]
    exact ⟨g.directory_blocks, List.mem_map.mpr ⟨0, List.mem_range.mpr hk1, rfl⟩⟩
  have hblocknz : ∀ b ∈ blocksList, b ≠ 0 := by
    intro b hb
    rcases List.mem_map.mp hb with ⟨j, _, rfl⟩
    omega
  have hbpe8 : g.use_16bit = true → g.blocks_per_entry = 8 := by
    intro h
    unfold Geom.blocks_per_entry
    rw [if_pos h]
  have hbpe16 : g.use_16bit = false → g.blocks_per_entry = 16 := by
    intro h
    unfold Geom.blocks_per_entry
    rw [if_neg (by simp [h])]
  set ab := (if g.use_16bit then encode16 blocksList else blocksList) with hab
  have hablen : ab.length ≤ 16 := by
    rw [hab]
    by_cases hu : g.use_16bit
    · rw [if_pos hu, encode16_length, hbllen]
      have := hbpe8 hu
      omega
    · rw [if_neg hu, hbllen]
      have := hbpe16 (by simpa using hu)
      omega
  have habpos : 1 ≤ ab.length := by
    rw [hab]
    by_cases hu : g.use_16bit
    · rw [if_pos hu, encode16_length, hbllen]
      omega
    · rw [if_neg hu, hbllen]
      omega
  set fn8 := filename ++ List.replicate (8 - filename.length) 32 with hfn8def
  set ft3 := filetype ++ List.replicate (3 - filetype.length) 32 with hft3def
  have hfn8len : fn8.length = 8 := by
    rw [hfn8def]
    simp only [List.length_append, List.length_replicate]
    omega
  have hft3len : ft3.length = 3 := by
    rw [hft3def]
    simp only [List.length_append, List.length_replicate]
    omega
  set E := CPMDirectoryEntry.make g.use_16bit 0 filename filetype 0 0 rc
    blocksList with hE
  set eb := E.to_bytes g.use_16bit with heb
  have hebshape : eb = [0] ++ fn8 ++ ft3 ++ [0, 0] ++ [0] ++ [rc] ++ ab := by
    rw [heb, hE, to_bytes_make _ _ _ _ _ _ _ _ hblne, hfneq, hfteq, ← hab]
    rw [hfn8def, hft3def]
    rfl
  have heblen : eb.length = 16 + ab.length := by
    rw [hebshape]
    simp only [List.length_append, List.length_cons, List.length_nil,
      hfn8len, hft3len]
  set W : Image := (fun o =>
    if g.directory_start + g.directory_blocks * g.block_size ≤ o ∧
        o < g.directory_start + g.directory_blocks * g.block_size
          + k * g.block_size
    then data.getD
      (o - (g.directory_start + g.directory_blocks * g.block_size)) 0
    else initialize_disk g o) with hW
  set img3 := write_directory_entry g W 0 eb with himg3
  have himg3at : ∀ o, img3 o
      = if g.directory_start ≤ o ∧ o < g.directory_start + eb.length
        then eb.getD (o - g.directory_start) 0 else W o := by
    intro o
    rw [himg3]
    unfold write_directory_entry write_position
    rw [show g.directory_start + 0 * 32 = g.directory_start by omega]
  have hWout : ∀ o, o < g.directory_start + g.directory_blocks * g.block_size →
      W o = initialize_disk g o := by
    intro o ho
    rw [hW]
    exact if_neg (by omega)
  have hWin : ∀ o, g.directory_start + g.directory_blocks * g.block_size ≤ o →
      o < g.directory_start + g.directory_blocks * g.block_size
        + k * g.block_size →
      W o = data.getD
        (o - (g.directory_start + g.directory_blocks * g.block_size)) 0 := by
    intro o h1 h2
    rw [hW]
    exact if_pos ⟨h1, h2⟩
  -- slot 0 of the final image holds the record bytes padded with zeros
  have hread0 : read_directory_entry g img3 0
      = [0] ++ fn8 ++ ft3 ++ [0, 0] ++ [0] ++ [rc]
        ++ (ab ++ List.replicate (16 - ab.length) 0) := by
    unfold read_directory_entry
    apply read_position_eq_of
    · simp only [List.length_append, List.length_cons, List.length_nil,
        List.length_replicate, hfn8len, hft3len]
      omega
    · intro j hj
      have hRapp : [0] ++ fn8 ++ ft3 ++ [0, 0] ++ [0] ++ [rc]
            ++ (ab ++ List.replicate (16 - ab.length) 0)
          = eb ++ List.replicate (16 - ab.length) 0 := by
        rw [hebshape]
        simp [List.append_assoc]
      rw [show g.directory_start + 0 * 32 + j = g.directory_start + j by omega]
      rw [himg3at, hRapp]
      rcases Nat.lt_or_ge j eb.length with hjeb | hjeb
      · rw [if_pos (by omega)]
        rw [show g.directory_start + j - g.directory_start = j by omega]
        have hgoal : (eb ++ List.replicate (16 - ab.length) 0).getD j 0
            = eb.getD j 0 := by
          rw [List.getD_eq_getElem?_getD, List.getElem?_append,
            if_pos (by omega : j < eb.length), ← List.getD_eq_getElem?_getD]
        rw [hgoal]
      · rw [if_neg (by omega)]
        rw [hWout _ (by omega)]
        unfold initialize_disk
        rw [init_upto_apply, if_neg (by omega)]
        rw [List.getD_eq_getElem?_getD, List.getElem?_append_right
          (by omega : eb.length ≤ j), ← List.getD_eq_getElem?_getD,
          getD_replicate_zero]
  -- every other scanned slot still holds the unused sentinel record
  have hreade : ∀ e, 1 ≤ e → e < g.drm →
      read_directory_entry g img3 e = empty_entry := by
    intro e h1 h2
    unfold read_directory_entry
    apply read_position_eq_of _ _ 32 empty_entry rfl
    intro j hj
    have hmul : e * 32 + 32 ≤ g.drm * 32 := by
      have := Nat.mul_le_mul_right 32 (by omega : e + 1 ≤ g.drm)
      omega
    rw [himg3at, if_neg (by omega)]
    rw [hWout _ (by omega)]
    unfold initialize_disk
    rw [init_upto_apply]
    rw [empty_entry_getD]
    have hmod : (g.directory_start + e * 32 + j - g.directory_start) % 32 = j := by
      omega
    split_ifs <;> omega
  -- decoding slot 0
  have hparse0 : CPMDirectoryEntry.from_bytes g.use_16bit
        (read_directory_entry g img3 0)
      = CPMDirectoryEntry.make g.use_16bit 0 filename filetype 0 0 rc
          (blocksList ++ List.replicate (g.blocks_per_entry - k) 0) := by
    rw [hread0]
    rw [from_bytes_parse g.use_16bit 0 0 0 0 rc fn8 ft3
      (ab ++ List.replicate (16 - ab.length) 0) hfn8len hft3len]
    have htake : (ab ++ List.replicate (16 - ab.length) 0).take 16
        = ab ++ List.replicate (16 - ab.length) 0 := by
      apply List.take_of_length_le
      simp only [List.length_append, List.length_replicate]
      omega
    rw [htake]
    rw [hfn8def, rstripWs_append_spaces _ _ hfn]
    rw [hft3def, rstripWs_append_spaces _ _ hft]
    by_cases hu : g.use_16bit
    · have habu : ab = encode16 blocksList := by rw [hab, if_pos hu]
      have hbound : ∀ b ∈ blocksList, b < 65536 := by
        intro b hb
        rcases List.mem_map.mp hb with ⟨j, hj, rfl⟩
        have hjk := List.mem_range.mp hj
        omega
      have hrw : (if g.use_16bit
            then decode16 (ab ++ List.replicate (16 - ab.length) 0)
            else ab ++ List.replicate (16 - ab.length) 0)
          = blocksList ++ List.replicate (g.blocks_per_entry - k) 0 := by
        rw [if_pos hu]
        rw [show (16 - ab.length) = 2 * (8 - k) by
          rw [habu, encode16_length, hbllen]
          have := hbpe8 hu
          omega]
        rw [habu, decode16_encode16_append blocksList (8 - k) hbound,
          hbpe8 hu]
      rw [hrw]
    · have hu' : g.use_16bit = false := by simpa using hu
      have habu : ab = blocksList := by rw [hab, if_neg hu]
      have hrw : (if g.use_16bit
            then decode16 (ab ++ List.replicate (16 - ab.length) 0)
            else ab ++ List.replicate (16 - ab.length) 0)
          = blocksList ++ List.replicate (g.blocks_per_entry - k) 0 := by
        rw [if_neg hu, habu, hbllen, hbpe16 hu']
      rw [hrw]
  -- the decoded entry matches the requested name
  have hmatchE : entry_matches (CPMDirectoryEntry.make g.use_16bit 0 filename
        filetype 0 0 rc (blocksList ++ List.replicate (g.blocks_per_entry - k) 0))
      filename filetype = true := by
    unfold entry_matches
    rw [make_filename, make_filetype, hfneq, hfteq]
    rw [show ljust filename 8 32
        = filename ++ List.replicate (8 - filename.length) 32 from rfl]
    rw [show ljust filetype 3 32
        = filetype ++ List.replicate (3 - filetype.length) 32 from rfl]
    rw [stripWs_append_spaces _ _ hfn, stripWs_append_spaces _ _ hft]
    rw [upperAscii_eq_self _ hfn, upperAscii_eq_self _ hft]
    simp
  -- an unused record never matches a good name
  have hnomatch : entry_matches (CPMDirectoryEntry.from_bytes g.use_16bit
        empty_entry) filename filetype = false := by
    unfold entry_matches
    have hfne : stripWs ((CPMDirectoryEntry.from_bytes g.use_16bit
          empty_entry).filename) = List.replicate 8 0 := by
      rw [show empty_entry = [0xE5] ++ List.replicate 8 0 ++ List.replicate 3 0
          ++ [0, 0] ++ [0] ++ [0] ++ List.replicate 16 0 by decide]
      rw [from_bytes_parse _ _ _ _ _ _ _ _ _ (by decide) (by decide)]
      rw [make_filename]
      rw [show ljust (upperAscii (sanitizeFilename
          (rstripWs (List.replicate 8 0)))) 8 32 = List.replicate 8 0 by decide]
      decide
    rw [hfne]
    have hne : (List.replicate 8 (0 : Nat) == upperAscii filename) = false := by
      rw [upperAscii_eq_self _ hfn]
      apply beq_eq_false_iff_ne.mpr
      intro hcontra
      have h0mem : (0 : Nat) ∈ filename := by
        rw [← hcontra]
        exact List.mem_replicate.mpr ⟨by omega, rfl⟩
      exact goodChar_ne_zero 0 (hfn 0 h0mem) rfl
    rw [hne]
    rfl
  -- the directory scan finds exactly the written entry
  have hentries : (List.range g.drm).filterMap (fun entry_number =>
      let entry := CPMDirectoryEntry.from_bytes g.use_16bit
        (read_directory_entry g img3 entry_number)
      if entry_matches entry filename filetype then some entry else none)
      = [CPMDirectoryEntry.make g.use_16bit 0 filename filetype 0 0 rc
          (blocksList ++ List.replicate (g.blocks_per_entry - k) 0)] := by
    obtain ⟨d', hd'⟩ : ∃ d', g.drm = d' + 1 := ⟨g.drm - 1, by omega⟩
    rw [hd', List.range_succ_eq_map, List.filterMap_cons]
    have h0 : (fun entry_number =>
        let entry := CPMDirectoryEntry.from_bytes g.use_16bit
          (read_directory_entry g img3 entry_number)
        if entry_matches entry filename filetype then some entry else none) 0
        = some (CPMDirectoryEntry.make g.use_16bit 0 filename filetype 0 0 rc
            (blocksList ++ List.replicate (g.blocks_per_entry - k) 0)) := by
      show (if entry_matches (CPMDirectoryEntry.from_bytes g.use_16bit
            (read_directory_entry g img3 0)) filename filetype
          then some (CPMDirectoryEntry.from_bytes g.use_16bit
            (read_directory_entry g img3 0)) else none) = _
      rw [hparse0, if_pos hmatchE]
    have hrest : ((List.range d').map Nat.succ).filterMap (fun entry_number =>
        let entry := CPMDirectoryEntry.from_bytes g.use_16bit
          (read_directory_entry g img3 entry_number)
        if entry_matches entry filename filetype then some entry else none)
        = [] := by
      rw [List.filterMap_eq_nil_iff]
      intro a ha
      rcases List.mem_map.mp ha with ⟨j, hj, rfl⟩
      have hj' := List.mem_range.mp hj
      show (if entry_matches (CPMDirectoryEntry.from_bytes g.use_16bit
          (read_directory_entry g img3 (Nat.succ j))) filename filetype
        then some _ else none) = none
      rw [hreade (Nat.succ j) (by omega) (by omega), hnomatch]
      rfl
    simp only [h0, hrest]
  -- reading back each planned block returns the corresponding slice
  have heble : eb.length ≤ 32 := by omega
  have hrb : ∀ j, j < k → read_block g img3 (g.directory_blocks + j)
      = pySlice data (j * g.block_size) (j * g.block_size + g.block_size) := by
    intro j hjk
    unfold read_block
    rw [show (g.directory_blocks + j + g.off_blocks) * g.block_size
        = g.directory_start + (g.directory_blocks + j) * g.block_size by
      rw [hoff]
      ring]
    have hmono : j * g.block_size + g.block_size ≤ k * g.block_size := by
      have h := Nat.mul_le_mul_right g.block_size (by omega : j + 1 ≤ k)
      rw [Nat.add_one_mul] at h
      omega
    apply read_position_eq_of
    · rw [pySlice_length data _ _ (by omega) (by omega)]
      omega
    · intro t ht
      have hdbj : (g.directory_blocks + j) * g.block_size
          = g.directory_blocks * g.block_size + j * g.block_size := by ring
      rw [himg3at, if_neg (by omega)]
      rw [hWin _ (by omega) (by omega)]
      rw [pySlice_getD data _ _ t (by omega)]
      refine congrArg₂ _ ?_ rfl
      omega
  -- assemble read_file
  unfold read_file
  simp only [hentries, List.isEmpty_cons, Bool.false_eq_true, if_false]
  refine congrArg some ?_
  rw [List.map_cons, List.map_nil, List.flatten_cons, List.flatten_nil,
    List.append_nil]
  rw [make_block_allocation _ _ _ _ _ _ _ _ (by
    rw [List.isEmpty_eq_false_iff_exists_mem] at hblne ⊢
    obtain ⟨x, hx⟩ := hblne
    exact ⟨x, List.mem_append_left _ hx⟩)]
  rw [takeWhile_ne_zero_append blocksList _ hblocknz]
  have hmapslices : blocksList.map (fun block => read_block g img3 block)
      = (List.range k).map (fun i =>
          pySlice data (i * g.block_size) (i * g.block_size + g.block_size)) := by
    rw [hbl, List.map_map]
    apply List.map_congr_left
    intro j hj
    simp only [Function.comp_apply]
    exact hrb j (List.mem_range.mp hj)
  rw [hmapslices, flatten_slices k data g.block_size hlen]

/-- C1 (amended): on a freshly initialized disk whose geometry has
positive block/sector sizes and at least one directory entry, whose write
offset base coincides with its read offset base
(`directory_start = off_blocks · block_size`, i.e. the block size divides the
reserved-track byte count), and with room for the file, writing a file whose
size is a positive multiple of the block size fitting in one extent
(`size = k · blockSize`, `1 ≤ k ≤ blocksPerEntry`) under digit/uppercase
names of legal length, and then reading it back, returns the data unchanged.
(The last two hypotheses keep the run inside Python's `bytearray`/`to_bytes`
range checks.)  As literally stated — for *every* geometry and byte string —
the claim is false, see the counterexample. -/
theorem C1_write_read_roundtrip (g : Geom) (filename filetype data : List Nat)
    (k : Nat)
    (hbs : 0 < g.block_size) (hss : 0 < g.sector_size) (hdrm : 0 < g.drm)
    (hoff : g.directory_start = g.off_blocks * g.block_size)
    (hlen : data.length = k * g.block_size)
    (hk1 : 1 ≤ k) (hk2 : k ≤ g.blocks_per_entry)
    (hfit : (g.directory_blocks : Int) + k ≤ g.total_usable_blocks + 1)
    (hfn : ∀ c ∈ filename, goodChar c) (hfn8 : filename.length ≤ 8)
    (hft : ∀ c ∈ filetype, goodChar c) (hft3 : filetype.length ≤ 3)
    (htub : g.total_usable_blocks ≤ 65535)
    (_hrc : ceilNat data.length g.sector_size ≤ 255)
    (_hdata : ∀ b ∈ data, b < 256) :
    ∃ img, write_file g (initialize_disk g) filename filetype data = .ok img
      ∧ read_file g img filename filetype = some data :=
  ⟨_, write_file_init g filename filetype data k hbs hss hdrm hlen hk1 hk2 hfit,
    read_file_init g filename filetype data k hbs hdrm hoff hlen hk1 hk2
      hfn hfn8 hft hft3 hfit htub⟩

/-- Witness for C1 on `g_small` (whose offset bases coincide) with the
one-block file "A.B". -/
theorem C1_write_read_roundtrip_witness :
    0 < Geom.block_size g_small ∧ 0 < Geom.sector_size g_small ∧
      0 < g_small.drm ∧
      Geom.directory_start g_small
        = Geom.off_blocks g_small * Geom.block_size g_small ∧
      data_one_block.length = 1 * Geom.block_size g_small ∧
      1 ≤ 1 ∧ 1 ≤ Geom.blocks_per_entry g_small ∧
      ((Geom.directory_blocks g_small : Int) + 1
        ≤ Geom.total_usable_blocks g_small + 1) ∧
      (∀ c ∈ nameA, goodChar c) ∧ nameA.length ≤ 8 ∧
      (∀ c ∈ typeB, goodChar c) ∧ typeB.length ≤ 3 ∧
      Geom.total_usable_blocks g_small ≤ 65535 ∧
      ceilNat data_one_block.length (Geom.sector_size g_small) ≤ 255 ∧
      (∀ b ∈ data_one_block, b < 256) ∧
      (∃ img, write_file g_small (initialize_disk g_small) nameA typeB
          data_one_block = .ok img
        ∧ read_file g_small img nameA typeB = some data_one_block) :=
  ⟨by decide, by decide, by decide, by decide, by decide, by decide, by decide,
    by decide, by decide, by decide, by decide, by decide, by decide, by decide,
    by decide,
    C1_write_read_roundtrip g_small nameA typeB data_one_block 1
      (by decide) (by decide) (by decide) (by decide) (by decide) (by decide)
      (by decide) (by decide) (by decide) (by decide) (by decide) (by decide)
      (by decide) (by decide) (by decide)⟩

end CpmDisk
